import Mathlib

/-!
Verification development for the echo-flux realtime transcription engine.

The Python sources are shallowly embedded:
* Python `str` is Lean `String`, with `str.lower`/`str.strip`/`str.split`
  given explicit character-level definitions (`pyLower`/`pyStrip`/`pySplit`)
  that agree with Python on the ASCII data these programs process;
* `float` arithmetic on durations/probabilities/timestamps is modelled over `ℚ`
  (the comparisons exercised here are far from any rounding boundary);
* machine integers are `Nat`/`Int`; int16 PCM chunks are `List ℤ` (the view
  `np.frombuffer(..., dtype=np.int16)` produces) and float32 sample buffers are
  `List ℚ`;
* exceptions are `Except`-values threaded together with the mutated object
  state, so that a raised exception leaves behind exactly the field updates
  that happened before the raise, as in Python;
* unbounded `while` loops are given explicit fuel that is provably sufficient
  (see the fuel-adequacy lemmas in the theorem section).
-/

namespace EchoFlux

set_option maxRecDepth 10000

/-! ### Python string primitives

Python string operations are given explicit character-level definitions (rather
than borrowing `String.split`/`String.trim`/`String.toLower`), so that every
definition in this file evaluates by kernel reduction.  On the ASCII data these
programs process, they agree with Python's semantics. -/

/-- Python `s.lower()` (ASCII case folding). -/
def pyLower (s : String) : String := String.mk (s.data.map Char.toLower)

/-- Python `s.strip()`: whitespace removed from both ends. -/
def pyStrip (s : String) : String :=
  String.mk
    (((s.data.dropWhile Char.isWhitespace).reverse.dropWhile
      Char.isWhitespace).reverse)

/-- Worker for `pySplit`: collect maximal non-whitespace runs. -/
def pySplitGo (acc : List Char) : List Char → List (List Char)
  | [] => if acc = [] then [] else [acc.reverse]
  | c :: cs =>
    if c.isWhitespace then
      if acc = [] then pySplitGo [] cs else acc.reverse :: pySplitGo [] cs
    else pySplitGo (c :: acc) cs

/-- Python `text.split()`: split on runs of whitespace, discarding empties. -/
def pySplit (s : String) : List String :=
  (pySplitGo [] s.data).map String.mk

/-- Lowercase every word; models `[w.lower() for w in ws]`. -/
def lowerL (ws : List String) : List String := ws.map pyLower

/-! ### The three-pass repetition cleaner

`FasterWhisperBackend._remove_repetitions` (src/engine/asr/faster_whisper_backend.py,
lines 203-297) and `TranslationBackend.post_process` (src/engine/translation/base.py,
lines 102-180) have byte-for-byte the same three-pass structure and differ only in
three constants, so both are obtained from one parametric core:

| parameter | `_remove_repetitions` | `post_process` |
|---|---|---|
| `minLen` (short-text guard `len(text) < minLen`) | 10 | 5 |
| `maxKeep` (pass 1 keeps at most this many consecutive equal words) | 2 | 1 |
| `nCap` (pass 2 tries `n ∈ range(2, min(nCap, len//2 + 1))`) | 11 | 9 |

(`post_process`'s guard is `not text or len(text) < 5`, and the empty string has
length `0 < 5`, so only the length test matters.  `post_process`'s pass 1 appends
a word only when it differs from its predecessor, which is exactly the counter
formulation with `maxKeep = 1`.) -/

/-- Pass 1 loop body: `prev` is the previous original word, `count` the current
run length.  A word equal (case-insensitively) to its predecessor is kept only
while the run length stays `≤ maxKeep`. -/
def pass1Aux (maxKeep : Nat) (prev : String) (count : Nat) : List String → List String
  | [] => []
  | w :: rest =>
    if pyLower w = pyLower prev then
      let c := count + 1
      if c ≤ maxKeep then w :: pass1Aux maxKeep w c rest
      else pass1Aux maxKeep w c rest
    else
      w :: pass1Aux maxKeep w 1 rest

/-- Pass 1: collapse runs of the same case-insensitive word to at most
`maxKeep` occurrences.  (`deduplicated = [words[0]]; repeat_count = 1; ...`;
the guards ensure the word list is nonempty when this runs.) -/
def pass1 (maxKeep : Nat) : List String → List String
  | [] => []
  | w :: ws => w :: pass1Aux maxKeep w 1 ws

/-- The `n`-word block of `res` starting at index `i`: `result[i:i+n]`. -/
def blockAt (res : List String) (i n : Nat) : List String :=
  (res.drop i).take n

/-- Scan for the least index `i` with `i + 2*n ≤ len` whose `n`-block equals the
next `n`-block case-insensitively.  Fuel `res.length + 1` suffices: `i`
increases by one per step and the scan stops as soon as `i + 2*n > res.length`
(the callers always pass `n ≥ 2`). -/
def scanMatchAux (res : List String) (n : Nat) : Nat → Nat → Option Nat
  | 0, _ => none
  | fuel + 1, i =>
    if i + 2 * n ≤ res.length then
      if lowerL (blockAt res i n) = lowerL (blockAt res (i + n) n) then some i
      else scanMatchAux res n fuel (i + 1)
    else none

def scanMatch (res : List String) (n : Nat) : Option Nat :=
  scanMatchAux res n (res.length + 1) 0

/-- `pos` advances over every further consecutive copy of the (lowered) pattern:
`while pos + n <= len(result): candidate = ...; if candidate == pattern_lower:
pos += n else: break`.  Fuel `res.length + 1` suffices since each step needs
`pos + n ≤ res.length` and advances `pos` by `n ≥ 2`. -/
def skipCopiesAux (res : List String) (patLow : List String) (n : Nat) :
    Nat → Nat → Nat
  | 0, pos => pos
  | fuel + 1, pos =>
    if pos + n ≤ res.length then
      if lowerL (blockAt res pos n) = patLow then
        skipCopiesAux res patLow n fuel (pos + n)
      else pos
    else pos

/-- One match-and-collapse attempt for block size `n`: on the first adjacent
repeat, keep the pattern, skip all consecutive copies, append the tail
(`new_result = result[:i] + pattern + result[pos:]`). -/
def collapseAt (res : List String) (n : Nat) : Option (List String) :=
  match scanMatch res n with
  | none => none
  | some i =>
    let pat := blockAt res i n
    let pos := skipCopiesAux res (lowerL pat) n (res.length + 1) (i + n)
    some (res.take i ++ pat ++ res.drop pos)

/-- One sweep of the `for n in range(2, min(nCap, len(result) // 2 + 1))` loop:
the first block size (smallest `n`) with an adjacent repeat wins. -/
def pass2Step (nCap : Nat) (res : List String) : Option (List String) :=
  (List.range' 2 (min nCap (res.length / 2 + 1) - 2)).findSome? (collapseAt res)

/-- The `while found:` loop with fuel.  Each successful sweep shortens the list
by at least `n ≥ 2` words (see `pass2Step_length_lt`), so fuel
`res.length + 1` can never run out before the loop exits on its own. -/
def pass2Fuel (nCap : Nat) : Nat → List String → List String
  | 0, res => res
  | fuel + 1, res =>
    match pass2Step nCap res with
    | some r => pass2Fuel nCap fuel r
    | none => res

/-- Pass 2: collapse consecutive n-gram repeats, re-sweeping until a full sweep
finds none. -/
def pass2 (nCap : Nat) (res : List String) : List String :=
  pass2Fuel nCap (res.length + 1) res

/-- Occurrence count of the (lowercase) word `w` in `res`, compared
case-insensitively — `Counter(w.lower() for w in result)[w]`. -/
def countLow (res : List String) (w : String) : Nat :=
  (res.filter (fun x => pyLower x == w)).length

/-- Keys of `Counter(...)` in insertion order: first occurrences, in order. -/
def firstOccsAux (seen : List String) : List String → List String
  | [] => []
  | x :: xs =>
    if seen.contains x then firstOccsAux seen xs
    else x :: firstOccsAux (x :: seen) xs

def firstOccs (l : List String) : List String := firstOccsAux [] l

/-- `Counter.most_common(1)`: the candidate with the greatest count; Python's
stable sort breaks ties in favour of the earliest-inserted key. -/
def argmaxFirst (f : String → Nat) : List String → Option String
  | [] => none
  | x :: xs =>
    match argmaxFirst f xs with
    | none => some x
    | some y => if f x < f y then some y else some x

/-- The dominant-word trim: walk `result`, counting occurrences of `word`, and
stop just before the fourth occurrence (`if seen_count > 3: break`). -/
def pass3Trim (word : String) (seen : Nat) : List String → List String
  | [] => []
  | w :: ws =>
    let s := if pyLower w == word then seen + 1 else seen
    if s > 3 then [] else w :: pass3Trim word s ws

/-- Pass 3: if a single word makes up more than 40 % of more than 5 words,
truncate at its fourth occurrence.  Python compares `count > total * 0.4` in
floating point; over `ℚ` this is `5 * count > 2 * total` (exact for every
`total` small enough that `total * 0.4` rounds to `2*total/5`, which holds for
all realistic transcript lengths). -/
def pass3 (res : List String) : List String :=
  match argmaxFirst (countLow res) (firstOccs (lowerL res)) with
  | none => res
  | some word =>
    let count := countLow res word
    let total := res.length
    if 5 * count > 2 * total ∧ total > 5 then pass3Trim word 0 res
    else res

/-- The parametric three-pass cleaner (see the table above). -/
def cleanCore (minLen maxKeep nCap : Nat) (text : String) : String :=
  if text.length < minLen then text
  else
    let words := pySplit text
    if words.length < 3 then text
    else
      let w1 := pass1 maxKeep words
      if w1.length < 4 then String.intercalate " " w1
      else
        let result := pass2 nCap w1
        if result.length < 2 then String.intercalate " " result
        else String.intercalate " " (pass3 result)

/-- `FasterWhisperBackend._remove_repetitions`
(src/engine/asr/faster_whisper_backend.py, lines 203-297). -/
def remove_repetitions (text : String) : String := cleanCore 10 2 11 text

/-- `TranslationBackend.post_process` (src/engine/translation/base.py,
lines 102-180). -/
def post_process (text : String) : String := cleanCore 5 1 9 text

/-- `MAX_WORDS_PER_SECOND = 5.0`. -/
def MAX_WORDS_PER_SECOND : ℚ := 5

/-- `FasterWhisperBackend._enforce_length_limit`
(src/engine/asr/faster_whisper_backend.py, lines 299-313).  Python's
`int(audio_duration * 5.0)` truncates toward zero; durations are nonnegative at
every call site, so this is the floor. -/
def enforce_length_limit (text : String) (audio_duration : ℚ) : String :=
  let words := pySplit text
  let max_words := max (⌊audio_duration * MAX_WORDS_PER_SECOND⌋.toNat) 5
  if words.length > max_words then
    String.intercalate " " (words.take max_words)
  else text

/-! ### The ASR engine (`FasterWhisperBackend`)

State machine for src/engine/asr/faster_whisper_backend.py.  The native
`WhisperModel.transcribe` call is an oracle `DecodeFn` supplied per call; a
raised exception is `Except.error`.  `self._sample_rate` is set to 16000 in
`__init__` and never reassigned, so it is a constant here.  `time.time()` is
the `now` argument. -/

/-- A decoded segment.  Only `text` is read by the engine; `endTime` models the
`end` attribute that the spec's segment-boundary commit would use. -/
structure Segment where
  text : String
  endTime : ℚ
  deriving DecidableEq, Repr

/-- Result of `model.transcribe`: the materialised segment list plus
`info.language`. -/
structure DecodeOut where
  segments : List Segment
  language : String
  deriving DecidableEq, Repr

/-- The decode oracle: `self._model.transcribe(self._audio_buffer, ...)`
followed by `list(segments_gen)`.  `Except.error` models a raised exception. -/
abbrev DecodeFn := List ℚ → Except String DecodeOut

structure TranscriptResult where
  text : String
  is_final : Bool
  language : String
  deriving DecidableEq, Repr

structure AsrState where
  modelLoaded : Bool        -- `self._model is not None`
  buffer : List ℚ           -- `self._audio_buffer`
  lastInferenceTime : ℚ     -- `self._last_inference_time`
  lastStableText : String   -- `self._last_stable_text`
  inferenceInterval : ℚ     -- `self._inference_interval`
  maxBufferDuration : ℚ     -- `self._max_buffer_duration`
  deriving DecidableEq, Repr

def asrSampleRate : ℕ := 16000

/-- `FasterWhisperBackend._bytes_to_float32`: int16 samples scaled by
1/32768. -/
def bytes_to_float32 (chunk : List ℤ) : List ℚ :=
  chunk.map (fun z : ℤ => (z : ℚ) / 32768)

/-- `int(self._max_buffer_duration * self._sample_rate)`. -/
def asrMaxSamples (st : AsrState) : ℕ :=
  (⌊st.maxBufferDuration * (asrSampleRate : ℚ)⌋).toNat

/-- `int(0.3 * self._sample_rate)` (= 4800). -/
def asrMinSamples : ℕ := (⌊(3 : ℚ) / 10 * (asrSampleRate : ℚ)⌋).toNat

/-- `raw_text = " ".join([s.text.strip() for s in segments if s.text.strip()])`. -/
def raw_text_of (out : DecodeOut) : String :=
  String.intercalate " "
    ((out.segments.map (fun s => pyStrip s.text)).filter (fun t => t ≠ ""))

/-- Layers 1 and 2 of the anti-hallucination pipeline applied to the decoded
text: the repetition cleaner, then the length limit at the window's duration
(`buffer_duration = len(self._audio_buffer) / self._sample_rate`). -/
def cleaned_text_of (st : AsrState) (out : DecodeOut) : String :=
  enforce_length_limit (remove_repetitions (raw_text_of out))
    ((st.buffer.length : ℚ) / (asrSampleRate : ℚ))

/-- `FasterWhisperBackend._run_inference` (lines 147-201).  Returns the
emitted result (or raised exception) together with the post-call state. -/
def run_inference (model : DecodeFn) (st : AsrState) (is_final : Bool) :
    Except String (Option TranscriptResult) × AsrState :=
  match model st.buffer with
  | .error e => (.error e, st)
  | .ok out =>
    if out.segments.isEmpty then (.ok none, st)
    else
      let raw_text := raw_text_of out
      if raw_text = "" then (.ok none, st)
      else
        let cleaned := cleaned_text_of st out
        if pyStrip cleaned = "" then (.ok none, st)
        else
          let is_hallucination := 10 * cleaned.length < 7 * raw_text.length
          let is_final := if is_hallucination then true else is_final
          let st := if is_hallucination then { st with buffer := [] } else st
          if is_final then
            (.ok (some ⟨cleaned, true, out.language⟩),
             { st with lastStableText := "", buffer := [] })
          else
            (.ok (some ⟨cleaned, false, out.language⟩),
             { st with lastStableText := cleaned })

/-- `FasterWhisperBackend._run_finalize` (lines 138-145).  The window is only
cleared after `_run_inference` returns; a raised exception skips the
clearing, exactly as in Python. -/
def run_finalize (model : DecodeFn) (st : AsrState) :
    Except String (Option TranscriptResult) × AsrState :=
  if st.modelLoaded = false ∨ st.buffer.length = 0 then (.ok none, st)
  else
    match run_inference model st true with
    | (.error e, st') => (.error e, st')
    | (.ok r, st') => (.ok r, { st' with buffer := [], lastStableText := "" })

/-- The tail of `transcribe_stream` after the cap check: throttling, the
0.3 s minimum window, then a non-final inference. -/
def stream_after_cap (model : DecodeFn) (st : AsrState) (now : ℚ) :
    Except String (Option TranscriptResult) × AsrState :=
  if now - st.lastInferenceTime < st.inferenceInterval then (.ok none, st)
  else
    let st := { st with lastInferenceTime := now }
    if st.buffer.length < asrMinSamples then (.ok none, st)
    else run_inference model st false

/-- `FasterWhisperBackend.transcribe_stream` (lines 112-133). -/
def transcribe_stream (model : DecodeFn) (st : AsrState) (chunk : List ℤ)
    (now : ℚ) : Except String (Option TranscriptResult) × AsrState :=
  if st.modelLoaded = false then (.ok none, st)
  else
    let st1 := { st with buffer := st.buffer ++ bytes_to_float32 chunk }
    -- `max_samples` only reads `_max_buffer_duration` and `_sample_rate`,
    -- which the append does not change, so `asrMaxSamples st1 = asrMaxSamples st`.
    if st1.buffer.length > asrMaxSamples st then
      match run_finalize model st1 with
      | (.error e, st') => (.error e, st')
      | (.ok (some r), st') => (.ok (some r), st')
      | (.ok none, st') => stream_after_cap model st' now
    else stream_after_cap model st1 now

/-! ### The VAD gate (`VAD`, src/engine/audio/vad.py)

The ONNX session is an oracle `infer : HC → window → prob × HC` over an
abstract recurrent-state type `HC` (the `(h, c)` tensor pair). -/

def WINDOW_SIZE_SAMPLES : ℕ := 512

structure VadState (HC : Type) where
  enabled : Bool        -- `self._enabled`
  sessionLoaded : Bool  -- `self._session is not None`
  threshold : ℚ         -- `self._threshold`
  buffer : List ℚ       -- `self._buffer`
  isSpeech : Bool       -- `self._is_speech`
  hc : HC               -- `self._h, self._c`

/-- The `while len(self._buffer) >= WINDOW_SIZE_SAMPLES:` loop.  Each
iteration consumes 512 samples, so fuel `buf.length` suffices (see
`vadLoopFuel_adequate`).  Returns the final recurrent state, speech flag and
leftover buffer. -/
def vadLoopFuel {HC : Type} (infer : HC → List ℚ → ℚ × HC) (threshold : ℚ) :
    Nat → HC → Bool → List ℚ → HC × Bool × List ℚ
  | 0, hc, speech, buf => (hc, speech, buf)
  | fuel + 1, hc, speech, buf =>
    if WINDOW_SIZE_SAMPLES ≤ buf.length then
      let w := buf.take WINDOW_SIZE_SAMPLES
      let rest := buf.drop WINDOW_SIZE_SAMPLES
      let p := infer hc w
      vadLoopFuel infer threshold fuel p.2
        (if threshold < p.1 then true else speech) rest
    else (hc, speech, buf)

namespace VAD

/-- `VAD.process` (lines 87-117): fail-open when disabled or the session is
missing; otherwise append normalized samples and run full 512-sample windows
through the model, latching `is_speech` on any probability above threshold.
(The local `has_speech_in_chunk` flag in the source is dead for the returned
value, which is `self._is_speech`.) -/
def process {HC : Type} (infer : HC → List ℚ → ℚ × HC) (st : VadState HC)
    (chunk : List ℤ) : Bool × VadState HC :=
  if ¬(st.enabled = true ∧ st.sessionLoaded = true) then (true, st)
  else
    let buf := st.buffer ++ bytes_to_float32 chunk
    let r := vadLoopFuel infer st.threshold buf.length st.hc st.isSpeech buf
    (r.2.1, { st with hc := r.1, isSpeech := r.2.1, buffer := r.2.2 })

/-- `VAD.reset` (lines 134-138); `zero` is the fresh `(h, c) = 0` pair. -/
def reset {HC : Type} (zero : HC) (st : VadState HC) : VadState HC :=
  { st with hc := zero, buffer := [], isSpeech := false }

end VAD

/-! ### Translation: shared base (`TranslationBackend`, src/engine/translation/base.py) -/

structure TranslationResultT where
  source_text : String
  translated_text : String
  source_lang : String
  target_lang : String
  deriving DecidableEq, Repr

/-- Python `s.strip(chars)`: drop the given characters from both ends. -/
def pyStripChars (cs : List Char) (s : String) : String :=
  String.mk (((s.data.dropWhile (cs.contains ·)).reverse.dropWhile
    (cs.contains ·)).reverse)

def isBoundaryPunct (c : Char) : Bool :=
  c == '.' || c == '!' || c == '?' || c == ';'

/-- Semantics of `re.split(r'(?<=[.!?;])\s+', text)`: the separators are the
maximal whitespace runs whose preceding character is sentence punctuation. -/
def sentSplitGo : Option Char → List Char → List Char → List String
  | _, acc, [] => [String.mk acc.reverse]
  | prev, acc, c :: rest =>
    if c.isWhitespace && (match prev with
        | some p => isBoundaryPunct p
        | none => false) then
      String.mk acc.reverse ::
        sentSplitGo (some c) [] (rest.dropWhile Char.isWhitespace)
    else
      sentSplitGo (some c) (c :: acc) rest
  termination_by _ _ l => l.length
  decreasing_by
  · exact Nat.lt_succ_of_le (List.dropWhile_sublist _).length_le
  · simp

def splitSentenceBoundaries (s : String) : List String :=
  sentSplitGo none [] s.data

/-- Semantics of `re.split(r',\s*', s)`: split at every comma, the comma and
any following whitespace being the separator. -/
def commaSplitGo : List Char → List Char → List String
  | acc, [] => [String.mk acc.reverse]
  | acc, c :: rest =>
    if c == ',' then
      String.mk acc.reverse :: commaSplitGo [] (rest.dropWhile Char.isWhitespace)
    else
      commaSplitGo (c :: acc) rest
  termination_by _ l => l.length
  decreasing_by
  · exact Nat.lt_succ_of_le (List.dropWhile_sublist _).length_le
  · simp

def commaSplit (s : String) : List String := commaSplitGo [] s.data

/-- The sentence-combining loop of `split_sentences`. -/
def combineGo (maxL : Nat) (current : String) : List String → List String
  | [] => if pyStrip current ≠ "" then [pyStrip current] else []
  | p :: ps =>
    if pyStrip p = "" then combineGo maxL current ps
    else if current ≠ "" ∧ current.length + p.length + 1 > maxL then
      pyStrip current :: combineGo maxL p ps
    else
      combineGo maxL (if current ≠ "" then pyStrip (current ++ " " ++ p) else p) ps

/-- The comma-chunking loop of `split_sentences`. -/
def commaChunksGo (maxL : Nat) (chunk : String) : List String → List String
  | [] => if pyStrip chunk ≠ "" then [pyStrip chunk] else []
  | cp :: cps =>
    if chunk ≠ "" ∧ chunk.length + cp.length + 2 > maxL then
      pyStrip chunk :: commaChunksGo maxL cp cps
    else
      commaChunksGo maxL
        (if chunk ≠ "" then pyStripChars [',', ' '] (chunk ++ ", " ++ cp)
         else cp) cps

/-- `TranslationBackend.split_sentences` (src/engine/translation/base.py,
lines 58-100). -/
def split_sentences (text : String) (max_length : Nat) : List String :=
  if text.length ≤ max_length then [text]
  else
    let parts := splitSentenceBoundaries text
    let sentences := combineGo max_length "" parts
    let final := sentences.foldl
      (fun acc s =>
        if s.length ≤ max_length then acc ++ [s]
        else acc ++ commaChunksGo max_length "" (commaSplit s)) []
    if final.isEmpty then [text] else final

/-! ### `OnlineBackend` (src/engine/translation/online_backend.py)

The HTTP request `_do_request` is an oracle keyed by the request text.  Its
Python failure modes split into three classes:
* `transErrBackoff` — `HTTPError` with code 429/403 or ≥ 500: `_activate_backoff`
  is called, then `TranslationError` is raised;
* `transErrPlain` — any other `HTTPError`, `URLError`, `TimeoutError`, or a
  non-200 status: `TranslationError` is raised with no backoff;
* `otherExc` — an exception that is not a `TranslationError` (e.g. a JSON
  parse error from `json.loads`); it escapes `_do_request` unwrapped.

`_translate_single` re-raises a `TranslationError` untouched (`except
TranslationError: raise`) and only calls `_on_failure` — the sole place the
consecutive-failure counter is incremented — in its generic
`except Exception` arm, i.e. for `otherExc` outcomes.

`time.sleep` in `_wait_for_rate_limit` only delays; its state effect (the
timestamp bookkeeping) is modelled, the wall-clock blocking is not. -/

inductive ReqOutcome where
  | ok (s : String)
  | transErrBackoff
  | transErrPlain
  | otherExc
  deriving DecidableEq, Repr

/-- Exception classes distinguished by the handlers in `_translate_single`. -/
inductive PyExc where
  | transError
  | otherError
  deriving DecidableEq, Repr

def MAX_REQUESTS_PER_MINUTE : ℕ := 30
def MAX_CACHE_SIZE : ℕ := 500
def INITIAL_BACKOFF_SECONDS : ℚ := 2
def MAX_BACKOFF_SECONDS : ℚ := 60
def BACKOFF_MULTIPLIER : ℚ := 2
def MAX_CONSECUTIVE_FAILURES : ℕ := 3
def ONLINE_RETRY_INTERVAL : ℚ := 60

structure OnlineState where
  loaded : Bool                 -- `self._loaded`
  consecutive_failures : ℕ
  backoff_until : ℚ
  current_backoff : ℚ
  cache : List ((String × String × String) × String)  -- OrderedDict, oldest first
  request_timestamps : List ℚ
  deriving DecidableEq, Repr

abbrev CacheKey := String × String × String

namespace OnlineBackend

/-- `_cache_get`: on a hit, `move_to_end` reinserts the entry at the newest
position. -/
def cache_get (st : OnlineState) (k : CacheKey) : Option String × OnlineState :=
  match st.cache.find? (fun e => e.1 == k) with
  | some e =>
    (some e.2, { st with cache := st.cache.filter (fun e => e.1 != k) ++ [e] })
  | none => (none, st)

/-- `_cache_put`: insert/update, evicting the oldest entry past
`MAX_CACHE_SIZE`. -/
def cache_put (st : OnlineState) (k : CacheKey) (v : String) : OnlineState :=
  let c :=
    if st.cache.any (fun e => e.1 == k) then
      st.cache.map (fun e => if e.1 == k then (k, v) else e)
    else st.cache ++ [(k, v)]
  { st with cache := if c.length > MAX_CACHE_SIZE then c.drop 1 else c }

/-- `_wait_for_rate_limit`: drop timestamps older than a minute and record this
request (the possible `time.sleep` has no state effect). -/
def wait_for_rate_limit (st : OnlineState) (now : ℚ) : OnlineState :=
  let ts := st.request_timestamps.filter (fun t => now - 60 < t)
  { st with request_timestamps := ts ++ [now] }

/-- `_activate_backoff`. -/
def activate_backoff (st : OnlineState) (now : ℚ) : OnlineState :=
  { st with backoff_until := now + st.current_backoff,
            current_backoff :=
              min (st.current_backoff * BACKOFF_MULTIPLIER) MAX_BACKOFF_SECONDS }

/-- `_on_success`. -/
def on_success (st : OnlineState) : OnlineState :=
  { st with consecutive_failures := 0,
            current_backoff := INITIAL_BACKOFF_SECONDS }

/-- `_on_failure`. -/
def on_failure (st : OnlineState) : OnlineState :=
  { st with consecutive_failures := st.consecutive_failures + 1 }

/-- `reset_failures`. -/
def reset_failures (st : OnlineState) : OnlineState :=
  { st with consecutive_failures := 0,
            current_backoff := INITIAL_BACKOFF_SECONDS,
            backoff_until := 0 }

/-- `_do_request` against the oracle. -/
def do_request (outcome : ReqOutcome) (st : OnlineState) (now : ℚ) :
    Except PyExc String × OnlineState :=
  match outcome with
  | .ok s => (.ok s, st)
  | .transErrBackoff => (.error .transError, activate_backoff st now)
  | .transErrPlain => (.error .transError, st)
  | .otherExc => (.error .otherError, st)

/-- `_translate_single` (lines 93-118).  Every outgoing exception is a
`TranslationError`, so the error payload carries no information. -/
def translate_single (net : String → ReqOutcome) (st : OnlineState) (now : ℚ)
    (text source_lang target_lang : String) : Except Unit String × OnlineState :=
  if pyStrip text = "" then (.ok "", st)
  else
    let key : CacheKey := (source_lang, target_lang, pyStrip text)
    match cache_get st key with
    | (some v, st) => (.ok v, st)
    | (none, st) =>
      let st := wait_for_rate_limit st now
      match do_request (net text) st now with
      | (.ok r, st) =>
        let st := on_success st
        let st := cache_put st key r
        (.ok r, st)
      | (.error .transError, st) => (.error (), st)
      | (.error .otherError, st) => (.error (), on_failure st)

/-- The `for sentence in sentences:` loop of `translate_raw`. -/
def translateList (net : String → ReqOutcome) (now : ℚ) (sl tl : String) :
    OnlineState → List String → Except Unit (List String) × OnlineState
  | st, [] => (.ok [], st)
  | st, s :: ss =>
    match translate_single net st now s sl tl with
    | (.ok t, st') =>
      match translateList net now sl tl st' ss with
      | (.ok ts, st'') => (.ok (t :: ts), st'')
      | (.error e, st'') => (.error e, st'')
    | (.error _, st') => (.error (), st')

/-- `OnlineBackend.translate_raw` (lines 65-91). -/
def translate_raw (net : String → ReqOutcome) (st : OnlineState) (now : ℚ)
    (text sl tl : String) : Except Unit TranslationResultT × OnlineState :=
  if pyStrip text = "" then (.ok ⟨text, "", sl, tl⟩, st)
  else if now < st.backoff_until then (.error (), st)
  else
    let sentences := split_sentences text 300
    match translateList net now sl tl st sentences with
    | (.ok parts, st') =>
      (.ok ⟨text, String.intercalate " " parts, sl, tl⟩, st')
    | (.error e, st') => (.error e, st')

/-- `TranslationBackend.translate` (base.py, lines 32-42) as inherited by
`OnlineBackend`: raw translation plus `post_process` on nonempty output. -/
def translate (net : String → ReqOutcome) (st : OnlineState) (now : ℚ)
    (text sl tl : String) : Except Unit TranslationResultT × OnlineState :=
  if pyStrip text = "" then (.ok ⟨text, "", sl, tl⟩, st)
  else
    match translate_raw net st now text sl tl with
    | (.error e, st') => (.error e, st')
    | (.ok r, st') =>
      let r := if r.translated_text ≠ "" then
          { r with translated_text := post_process r.translated_text }
        else r
      (.ok r, st')

/-- `is_available` (lines 224-231). -/
def is_available (st : OnlineState) (now : ℚ) : Bool :=
  if MAX_CONSECUTIVE_FAILURES ≤ st.consecutive_failures then false
  else if now < st.backoff_until then false
  else true

end OnlineBackend

/-! ### `FallbackTranslationBackend` (src/engine/translation/fallback_backend.py)

The Marian backend is an oracle `marian : text → sl → tl → Except Unit String`
standing for `MarianBackend.translate(...).translated_text` (that backend's own
post-processing included); `Except.error` models a raised exception. -/

structure RouterState where
  online : OnlineState
  onlineSome : Bool       -- `self._online is not None`
  online_loaded : Bool    -- `self._online_loaded`
  marianSome : Bool       -- `self._marian is not None`
  marianIsLoaded : Bool   -- `self._marian.is_loaded`
  marian_loaded : Bool    -- `self._marian_loaded`
  active : Option String  -- `self._active`
  fallen_back : Bool
  last_online_retry : ℚ
  deriving DecidableEq, Repr

abbrev MarianFn := String → String → String → Except Unit String

namespace Fallback

/-- `_try_marian` (lines 132-141). -/
def try_marian (marian : MarianFn) (rt : RouterState) (text sl tl : String) :
    TranslationResultT × RouterState :=
  if ¬(rt.marianSome = true ∧ rt.marianIsLoaded = true) then
    (⟨text, "", sl, tl⟩, rt)
  else
    match marian text sl tl with
    | .ok r => (⟨text, r, sl, tl⟩, rt)
    | .error _ => (⟨text, "", sl, tl⟩, rt)

/-- `_switch_to_marian` (lines 143-160). -/
def switch_to_marian (rt : RouterState) (now : ℚ) : RouterState :=
  if rt.marian_loaded = false then rt
  else if rt.active = some "marian" then rt
  else { rt with active := some "marian", fallen_back := true,
                 last_online_retry := now }

/-- `_switch_to_online` (lines 162-168). -/
def switch_to_online (rt : RouterState) : RouterState :=
  let rt := { rt with active := some "online", fallen_back := false }
  if rt.onlineSome then
    { rt with online := OnlineBackend.reset_failures rt.online }
  else rt

/-- `_try_online` (lines 103-130).  The entire `try` block — availability
check, online translate, empty-result check — lands in the `except` arm on any
failure, which consults `consecutive_failures >= 3`, possibly switches to
Marian, then falls back to Marian for this one request. -/
def try_online (net : String → ReqOutcome) (marian : MarianFn)
    (rt : RouterState) (now : ℚ) (text sl tl : String) :
    TranslationResultT × RouterState :=
  let attempt : Except Unit TranslationResultT × OnlineState :=
    if ¬(rt.onlineSome = true ∧ OnlineBackend.is_available rt.online now = true)
    then (.error (), rt.online)
    else
      match OnlineBackend.translate net rt.online now text sl tl with
      | (.ok r, st') =>
        if pyStrip r.translated_text = "" then (.error (), st') else (.ok r, st')
      | (.error _, st') => (.error (), st')
  match attempt with
  | (.ok r, st') => (r, { rt with online := st' })
  | (.error _, st') =>
    let rt := { rt with online := st' }
    let rt :=
      if rt.onlineSome = true ∧ 3 ≤ rt.online.consecutive_failures then
        switch_to_marian rt now
      else rt
    if rt.marian_loaded = true then try_marian marian rt text sl tl
    else (⟨text, "", sl, tl⟩, rt)

/-- `_maybe_retry_online` (lines 170-195). -/
def maybe_retry_online (net : String → ReqOutcome) (rt : RouterState)
    (now : ℚ) (text sl tl : String) : RouterState :=
  if now - rt.last_online_retry < ONLINE_RETRY_INTERVAL then rt
  else
    let rt := { rt with last_online_retry := now }
    let rt :=
      if rt.onlineSome then
        { rt with online := OnlineBackend.reset_failures rt.online }
      else rt
    if ¬(rt.onlineSome = true ∧ rt.online.loaded = true) then rt
    else
      let probe := text.take 50
      match OnlineBackend.translate net rt.online now probe sl tl with
      | (.ok r, st') =>
        let rt := { rt with online := st' }
        if pyStrip r.translated_text ≠ "" then switch_to_online rt else rt
      | (.error _, st') => { rt with online := st' }

/-- `FallbackTranslationBackend.translate_raw` (lines 89-101). -/
def translate_raw (net : String → ReqOutcome) (marian : MarianFn)
    (rt : RouterState) (now : ℚ) (text sl tl : String) :
    TranslationResultT × RouterState :=
  if pyStrip text = "" then (⟨text, "", sl, tl⟩, rt)
  else
    let rt :=
      if rt.fallen_back = true ∧ rt.online_loaded = true then
        maybe_retry_online net rt now text sl tl
      else rt
    if rt.active = some "online" then try_online net marian rt now text sl tl
    else try_marian marian rt text sl tl

end Fallback

/-! ## Fuel adequacy

The Python `while` loops embedded with fuel really are fuel-independent: the
pass-2 sweep shortens its list on every successful iteration, and the VAD
window loop consumes 512 samples per iteration, so the chosen fuel can never
be exhausted before the loop exits on its own. -/

theorem scanMatchAux_some {res : List String} {n fuel i j : Nat}
    (h : scanMatchAux res n fuel i = some j) :
    i ≤ j ∧ j + 2 * n ≤ res.length ∧
      lowerL (blockAt res j n) = lowerL (blockAt res (j + n) n) := by
  induction fuel generalizing i with
  | zero => simp [scanMatchAux] at h
  | succ fuel ih =>
    rw [scanMatchAux] at h
    by_cases hle : i + 2 * n ≤ res.length
    · rw [if_pos hle] at h
      by_cases heq : lowerL (blockAt res i n) = lowerL (blockAt res (i + n) n)
      · rw [if_pos heq] at h
        cases h
        exact ⟨le_refl _, hle, heq⟩
      · rw [if_neg heq] at h
        obtain ⟨h1, h2, h3⟩ := ih h
        exact ⟨by omega, h2, h3⟩
    · rw [if_neg hle] at h
      cases h

theorem skipCopiesAux_le (res patLow : List String) (n : Nat) :
    ∀ fuel pos, pos ≤ skipCopiesAux res patLow n fuel pos := by
  intro fuel
  induction fuel with
  | zero => intro pos; simp [skipCopiesAux]
  | succ fuel ih =>
    intro pos
    rw [skipCopiesAux]
    by_cases h1 : pos + n ≤ res.length
    · rw [if_pos h1]
      by_cases h2 : lowerL (blockAt res pos n) = patLow
      · rw [if_pos h2]
        exact le_trans (by omega) (ih (pos + n))
      · rw [if_neg h2]
    · rw [if_neg h1]

theorem collapseAt_some_length_lt {res : List String} {n : Nat} {r : List String}
    (hn : 1 ≤ n) (h : collapseAt res n = some r) : r.length < res.length := by
  unfold collapseAt at h
  rcases hs : scanMatch res n with _ | i
  · rw [hs] at h; cases h
  · rw [hs] at h
    obtain ⟨-, hle, heq⟩ := scanMatchAux_some hs
    cases h
    have hpos : i + 2 * n ≤
        skipCopiesAux res (lowerL (blockAt res i n)) n (res.length + 1) (i + n) := by
      rw [skipCopiesAux, if_pos (by omega : i + n + n ≤ res.length),
        if_pos heq.symm]
      calc i + 2 * n = (i + n) + n := by omega
        _ ≤ _ := skipCopiesAux_le res _ n res.length (i + n + n)
    have hb : (blockAt res i n).length = n := by
      simp only [blockAt, List.length_take, List.length_drop]
      omega
    simp only [List.length_append, List.length_take, List.length_drop, hb]
    omega

theorem pass2Step_length_lt {nCap : Nat} {res r : List String}
    (h : pass2Step nCap res = some r) : r.length < res.length := by
  unfold pass2Step at h
  have hex : ∃ n, n ∈ List.range' 2 (min nCap (res.length / 2 + 1) - 2) ∧
      collapseAt res n = some r := by
    generalize List.range' 2 (min nCap (res.length / 2 + 1) - 2) = l at h
    induction l with
    | nil => simp [List.findSome?] at h
    | cons x xs ih =>
      rw [List.findSome?_cons] at h
      rcases hx : collapseAt res x with _ | v
      · rw [hx] at h
        obtain ⟨a, ha, hfa⟩ := ih h
        exact ⟨a, List.mem_cons_of_mem _ ha, hfa⟩
      · rw [hx] at h
        cases h
        exact ⟨x, List.mem_cons_self _ _, hx⟩
  obtain ⟨n, hmem, hc⟩ := hex
  rw [List.mem_range'] at hmem
  obtain ⟨i, -, hni⟩ := hmem
  exact collapseAt_some_length_lt (by omega) hc

theorem pass2Fuel_adequate (nCap : Nat) :
    ∀ fuel₁ fuel₂ res, res.length < fuel₁ → res.length < fuel₂ →
      pass2Fuel nCap fuel₁ res = pass2Fuel nCap fuel₂ res := by
  intro fuel₁
  induction fuel₁ with
  | zero => intro fuel₂ res h1 _; omega
  | succ fuel₁ ih =>
    intro fuel₂ res h1 h2
    cases fuel₂ with
    | zero => omega
    | succ fuel₂ =>
      rw [pass2Fuel, pass2Fuel]
      rcases hs : pass2Step nCap res with _ | r
      · rfl
      · have hr := pass2Step_length_lt hs
        exact ih fuel₂ r (by omega) (by omega)

theorem vadLoopFuel_adequate {HC : Type} (infer : HC → List ℚ → ℚ × HC)
    (th : ℚ) :
    ∀ fuel₁ fuel₂ hc sp (buf : List ℚ), buf.length ≤ fuel₁ →
      buf.length ≤ fuel₂ →
      vadLoopFuel infer th fuel₁ hc sp buf = vadLoopFuel infer th fuel₂ hc sp buf := by
  intro fuel₁
  induction fuel₁ with
  | zero =>
    intro fuel₂ hc sp buf h1 _
    have : buf.length = 0 := by omega
    cases fuel₂ with
    | zero => rfl
    | succ fuel₂ =>
      rw [vadLoopFuel, vadLoopFuel,
        if_neg (by simp only [WINDOW_SIZE_SAMPLES]; omega)]
  | succ fuel₁ ih =>
    intro fuel₂ hc sp buf h1 h2
    cases fuel₂ with
    | zero =>
      have : buf.length = 0 := by omega
      rw [vadLoopFuel, vadLoopFuel,
        if_neg (by simp only [WINDOW_SIZE_SAMPLES]; omega)]
    | succ fuel₂ =>
      rw [vadLoopFuel, vadLoopFuel]
      by_cases hw : WINDOW_SIZE_SAMPLES ≤ buf.length
      · rw [if_pos hw, if_pos hw]
        have hlen : (buf.drop WINDOW_SIZE_SAMPLES).length ≤ fuel₁ ∧
            (buf.drop WINDOW_SIZE_SAMPLES).length ≤ fuel₂ := by
          simp only [List.length_drop, WINDOW_SIZE_SAMPLES] at *
          omega
        exact ih _ _ _ _ hlen.1 hlen.2
      · rw [if_neg hw, if_neg hw]

/-- Once the latch is set, no amount of further audio clears it inside the
window loop. -/
theorem vadLoopFuel_speech_true {HC : Type} (infer : HC → List ℚ → ℚ × HC)
    (th : ℚ) :
    ∀ fuel hc (buf : List ℚ),
      (vadLoopFuel infer th fuel hc true buf).2.1 = true := by
  intro fuel
  induction fuel with
  | zero => intro hc buf; rfl
  | succ fuel ih =>
    intro hc buf
    rw [vadLoopFuel]
    by_cases hw : WINDOW_SIZE_SAMPLES ≤ buf.length
    · rw [if_pos hw]
      simpa only [ite_self] using ih _ _
    · rw [if_neg hw]

/-- `VAD.process` never clears a set latch (regardless of the gate's guard
branch). -/
theorem process_latch {HC : Type} (infer : HC → List ℚ → ℚ × HC)
    (st : VadState HC) (chunk : List ℤ) (h : st.isSpeech = true) :
    (VAD.process infer st chunk).1 = true ∧
      (VAD.process infer st chunk).2.isSpeech = true := by
  unfold VAD.process
  by_cases hg : ¬(st.enabled = true ∧ st.sessionLoaded = true)
  · rw [if_pos hg]
    exact ⟨rfl, h⟩
  · rw [if_neg hg]
    refine ⟨?_, ?_⟩ <;>
      simpa only [h] using vadLoopFuel_speech_true infer st.threshold _ _ _

/-- A single full 512-sample window starting from an empty accumulator: the
gate's post-call state is speech iff it already was, or the one window's
probability clears the threshold. -/
theorem process_one_window {HC : Type} (infer : HC → List ℚ → ℚ × HC)
    (st : VadState HC) (chunk : List ℤ)
    (hen : st.enabled = true) (hse : st.sessionLoaded = true)
    (hbuf : st.buffer = []) (hlen : chunk.length = WINDOW_SIZE_SAMPLES) :
    (VAD.process infer st chunk).1 =
      (st.isSpeech || decide (st.threshold <
        (infer st.hc (bytes_to_float32 chunk)).1)) ∧
    (VAD.process infer st chunk).2.isSpeech =
      (st.isSpeech || decide (st.threshold <
        (infer st.hc (bytes_to_float32 chunk)).1)) := by
  have hfl : (bytes_to_float32 chunk).length = 512 := by
    rw [bytes_to_float32, List.length_map, hlen]; rfl
  have hloop : vadLoopFuel infer st.threshold 512 st.hc st.isSpeech
      (bytes_to_float32 chunk) =
      ((infer st.hc (bytes_to_float32 chunk)).2,
       (if st.threshold < (infer st.hc (bytes_to_float32 chunk)).1 then true
        else st.isSpeech), []) := by
    rw [show (512 : ℕ) = 511 + 1 from rfl, vadLoopFuel,
      if_pos (by rw [hfl]; simp [WINDOW_SIZE_SAMPLES]),
      List.take_of_length_le (by rw [hfl]; simp [WINDOW_SIZE_SAMPLES]),
      List.drop_eq_nil_of_le (by rw [hfl]; simp [WINDOW_SIZE_SAMPLES]),
      show (511 : ℕ) = 510 + 1 from rfl, vadLoopFuel,
      if_neg (by simp [WINDOW_SIZE_SAMPLES])]
  simp only [VAD.process, hen, hse, and_self, not_true_eq_false, if_false,
    hbuf, List.nil_append, hfl, hloop]
  by_cases hp : st.threshold < (infer st.hc (bytes_to_float32 chunk)).1 <;>
    simp [hp]

/-! ## ASR engine helper lemmas -/

/-- `_run_inference` either leaves the window untouched or clears it. -/
theorem run_inference_buffer (model : DecodeFn) (st : AsrState) (b : Bool) :
    (run_inference model st b).2.buffer = st.buffer ∨
      (run_inference model st b).2.buffer = [] := by
  unfold run_inference
  rcases model st.buffer with e | out
  · exact Or.inl rfl
  · dsimp only
    split
    · exact Or.inl rfl
    · split
      · exact Or.inl rfl
      · split
        · exact Or.inl rfl
        · split
          · exact Or.inr rfl
          · split
            · exact Or.inr rfl
            · exact Or.inl rfl

/-- On a loaded model and nonempty window, a `_run_finalize` that returns
(rather than raises) always leaves the window empty. -/
theorem run_finalize_ok_clears (model : DecodeFn) (st : AsrState)
    (hload : st.modelLoaded = true) (hbuf : st.buffer.length ≠ 0)
    (r : Option TranscriptResult)
    (h : (run_finalize model st).1 = Except.ok r) :
    (run_finalize model st).2.buffer = [] := by
  unfold run_finalize at h ⊢
  rw [if_neg (by simp [hload, hbuf])] at h ⊢
  generalize run_inference model st true = p at h ⊢
  obtain ⟨res, st'⟩ := p
  cases res
  · exact Except.noConfusion h
  · rfl

/-- The post-throttle tail of `transcribe_stream` leaves the window untouched
or clears it. -/
theorem stream_after_cap_buffer (model : DecodeFn) (st : AsrState) (now : ℚ) :
    (stream_after_cap model st now).2.buffer = st.buffer ∨
      (stream_after_cap model st now).2.buffer = [] := by
  unfold stream_after_cap
  split
  · exact Or.inl rfl
  · dsimp only
    split
    · exact Or.inl rfl
    · exact run_inference_buffer model _ false

/-- `int(0.3 * 16000) = 4800`. -/
theorem asrMinSamples_eq : asrMinSamples = 4800 := by
  have h : (⌊(3 : ℚ) / 10 * (asrSampleRate : ℚ)⌋) = 4800 := by
    norm_num [asrSampleRate]
  rw [asrMinSamples, h]
  rfl

/-- A non-final inference over ≥ 1 decoded segments whose cleaned text
survives the filters and is not flagged as hallucination emits the cleaned
joined text as a partial result and leaves the audio window untouched. -/
theorem run_inference_partial (model : DecodeFn) (st : AsrState)
    (out : DecodeOut) (hm : model st.buffer = Except.ok out)
    (hne : out.segments.isEmpty = false)
    (hraw : raw_text_of out ≠ "")
    (hcl : pyStrip (cleaned_text_of st out) ≠ "")
    (hhal : ¬ 10 * (cleaned_text_of st out).length <
      7 * (raw_text_of out).length) :
    run_inference model st false =
      (Except.ok (some ⟨cleaned_text_of st out, false, out.language⟩),
       { st with lastStableText := cleaned_text_of st out }) := by
  unfold run_inference
  rw [hm]
  dsimp only
  rw [if_neg (by simp [hne]), if_neg hraw, if_neg hcl, if_neg hhal,
    if_neg hhal]
  simp

/-- If the decode call raises while the cap, throttle and minimum-window
gates all pass, `transcribe_stream` propagates the exception; the state keeps
the appended window and the updated throttle timestamp. -/
theorem transcribe_stream_error_eq (model : DecodeFn) (st : AsrState)
    (chunk : List ℤ) (now : ℚ) (e : String)
    (hload : st.modelLoaded = true)
    (hm : model (st.buffer ++ bytes_to_float32 chunk) = Except.error e)
    (hcap : ¬ asrMaxSamples st < (st.buffer ++ bytes_to_float32 chunk).length)
    (ht : ¬ now - st.lastInferenceTime < st.inferenceInterval)
    (hmin : ¬ (st.buffer ++ bytes_to_float32 chunk).length < asrMinSamples) :
    transcribe_stream model st chunk now =
      (Except.error e,
       { st with buffer := st.buffer ++ bytes_to_float32 chunk,
                 lastInferenceTime := now }) := by
  unfold transcribe_stream
  rw [if_neg (by simp [hload])]
  dsimp only
  rw [if_neg hcap]
  unfold stream_after_cap
  rw [if_neg ht]
  dsimp only
  rw [if_neg hmin]
  unfold run_inference
  rw [hm]

/-! ## Cleaner helper lemmas -/

/-- On short texts (below the character guard) or texts of fewer than three
words, the three-pass cleaner is the identity. -/
theorem cleanCore_short_id (minLen maxKeep nCap : Nat) (x : String)
    (h : x.length < minLen ∨ (pySplit x).length < 3) :
    cleanCore minLen maxKeep nCap x = x := by
  unfold cleanCore
  rcases h with h | h
  · rw [if_pos h]
  · by_cases h1 : x.length < minLen
    · rw [if_pos h1]
    · rw [if_neg h1, if_pos h]

/-! ## Router helper lemmas -/

/-- `_try_marian` never mutates the router state. -/
theorem try_marian_state (marian : MarianFn) (rt : RouterState)
    (text sl tl : String) :
    (Fallback.try_marian marian rt text sl tl).2 = rt := by
  unfold Fallback.try_marian
  split
  · rfl
  · split <;> rfl

/-- A lookup in an empty cache misses and leaves the backend untouched. -/
theorem cache_get_empty (st : OnlineState) (k : CacheKey)
    (h : st.cache = []) : OnlineBackend.cache_get st k = (none, st) := by
  unfold OnlineBackend.cache_get
  rw [h]
  rfl

/-- `_enforce_length_limit` leaves text within the word budget unchanged. -/
theorem enforce_under_limit (text : String) (d : ℚ)
    (h : ¬ max (⌊d * MAX_WORDS_PER_SECOND⌋.toNat) 5 < (pySplit text).length) :
    enforce_length_limit text d = text := by
  unfold enforce_length_limit
  rw [if_neg h]

/-! ## Router call lemmas

One lemma per kind of `_translate_single` outcome, then one per router-level
call shape; the C4 theorems chain them. -/

/-- A request failing with an exception that is not a `TranslationError`
(e.g. a response-parse error) increments `consecutive_failures`. -/
theorem translate_single_otherExc (net : String → ReqOutcome)
    (st : OnlineState) (now : ℚ) (text sl tl : String)
    (hc : st.cache = []) (htr : ¬ pyStrip text = "")
    (hnet : net text = ReqOutcome.otherExc) :
    OnlineBackend.translate_single net st now text sl tl =
      (Except.error (),
       { st with consecutive_failures := st.consecutive_failures + 1,
                 request_timestamps :=
                   st.request_timestamps.filter (fun x => now - 60 < x)
                     ++ [now] }) := by
  unfold OnlineBackend.translate_single
  rw [if_neg htr]
  dsimp only
  rw [cache_get_empty st _ hc]
  dsimp only
  simp only [OnlineBackend.wait_for_rate_limit]
  rw [hnet]
  simp only [OnlineBackend.do_request, OnlineBackend.on_failure]

/-- A request failing with a `TranslationError` (rate limit without backoff
class, network error, timeout, bad HTTP status) is re-raised without touching
`consecutive_failures` — `_on_failure` is never called for it. -/
theorem translate_single_transErr (net : String → ReqOutcome)
    (st : OnlineState) (now : ℚ) (text sl tl : String)
    (hc : st.cache = []) (htr : ¬ pyStrip text = "")
    (hnet : net text = ReqOutcome.transErrPlain) :
    OnlineBackend.translate_single net st now text sl tl =
      (Except.error (),
       { st with request_timestamps :=
           st.request_timestamps.filter (fun x => now - 60 < x)
             ++ [now] }) := by
  unfold OnlineBackend.translate_single
  rw [if_neg htr]
  dsimp only
  rw [cache_get_empty st _ hc]
  dsimp only
  simp only [OnlineBackend.wait_for_rate_limit]
  rw [hnet]
  simp only [OnlineBackend.do_request]

/-- A successful request on an empty cache resets the failure counters and
caches the result. -/
theorem translate_single_ok (net : String → ReqOutcome)
    (st : OnlineState) (now : ℚ) (text sl tl s : String)
    (hc : st.cache = []) (htr : ¬ pyStrip text = "")
    (hnet : net text = ReqOutcome.ok s) :
    OnlineBackend.translate_single net st now text sl tl =
      (Except.ok s,
       { st with consecutive_failures := 0,
                 current_backoff := INITIAL_BACKOFF_SECONDS,
                 cache := [((sl, tl, pyStrip text), s)],
                 request_timestamps :=
                   st.request_timestamps.filter (fun x => now - 60 < x)
                     ++ [now] }) := by
  unfold OnlineBackend.translate_single
  rw [if_neg htr]
  dsimp only
  rw [cache_get_empty st _ hc]
  dsimp only
  simp only [OnlineBackend.wait_for_rate_limit]
  rw [hnet]
  simp only [OnlineBackend.do_request, OnlineBackend.on_success,
    OnlineBackend.cache_put, hc]
  simp [MAX_CACHE_SIZE]

/-- A lookup hit on a singleton cache returns the cached value, leaving the
cache as it was (the `move_to_end` of a singleton is itself). -/
theorem translate_single_hit (net : String → ReqOutcome)
    (st : OnlineState) (now : ℚ) (text sl tl v : String)
    (hcache : st.cache = [((sl, tl, pyStrip text), v)])
    (htr : ¬ pyStrip text = "") :
    OnlineBackend.translate_single net st now text sl tl =
      (Except.ok v, { st with cache := [((sl, tl, pyStrip text), v)] }) := by
  unfold OnlineBackend.translate_single
  rw [if_neg htr]
  dsimp only
  unfold OnlineBackend.cache_get
  rw [hcache]
  simp only [List.find?, beq_self_eq_true, List.filter, bne_self_eq_false,
    List.nil_append]

/-- `OnlineBackend.translate` on a one-sentence text whose single request
raises: the exception propagates with the mutated backend state. -/
theorem online_translate_fail (net : String → ReqOutcome)
    (st : OnlineState) (now : ℚ) (text sl tl : String) (st' : OnlineState)
    (htr : ¬ pyStrip text = "") (hb : ¬ now < st.backoff_until)
    (hlen : text.length ≤ 300)
    (hsingle : OnlineBackend.translate_single net st now text sl tl =
      (Except.error (), st')) :
    OnlineBackend.translate net st now text sl tl =
      (Except.error (), st') := by
  unfold OnlineBackend.translate OnlineBackend.translate_raw
  rw [if_neg htr, if_neg htr, if_neg hb]
  unfold split_sentences
  rw [if_pos hlen]
  unfold OnlineBackend.translateList
  dsimp only
  rw [hsingle]

/-- `OnlineBackend.translate` on a one-sentence text whose single request
returns `s`: the result is post-processed and the state carries the fresh
cache entry. -/
theorem online_translate_ok (net : String → ReqOutcome)
    (st : OnlineState) (now : ℚ) (text sl tl s : String)
    (hc : st.cache = []) (htr : ¬ pyStrip text = "")
    (hb : ¬ now < st.backoff_until) (hlen : text.length ≤ 300)
    (hnet : net text = ReqOutcome.ok s) (hs : s ≠ "") :
    OnlineBackend.translate net st now text sl tl =
      (Except.ok ⟨text, post_process s, sl, tl⟩,
       { st with consecutive_failures := 0,
                 current_backoff := INITIAL_BACKOFF_SECONDS,
                 cache := [((sl, tl, pyStrip text), s)],
                 request_timestamps :=
                   st.request_timestamps.filter (fun x => now - 60 < x)
                     ++ [now] }) := by
  unfold OnlineBackend.translate OnlineBackend.translate_raw
  rw [if_neg htr, if_neg htr, if_neg hb]
  unfold split_sentences
  rw [if_pos hlen]
  unfold OnlineBackend.translateList
  dsimp only
  rw [translate_single_ok net st now text sl tl s hc htr hnet]
  unfold OnlineBackend.translateList
  dsimp only
  rw [show String.intercalate " " [s] = s from rfl]
  rw [if_pos hs]

/-- `OnlineBackend.translate` hitting the cache: the cached value is
post-processed and returned; only the cache order is (trivially) touched. -/
theorem online_translate_hit (net : String → ReqOutcome)
    (st : OnlineState) (now : ℚ) (text sl tl v : String)
    (hcache : st.cache = [((sl, tl, pyStrip text), v)])
    (htr : ¬ pyStrip text = "") (hb : ¬ now < st.backoff_until)
    (hlen : text.length ≤ 300) (hv : v ≠ "") :
    OnlineBackend.translate net st now text sl tl =
      (Except.ok ⟨text, post_process v, sl, tl⟩,
       { st with cache := [((sl, tl, pyStrip text), v)] }) := by
  unfold OnlineBackend.translate OnlineBackend.translate_raw
  rw [if_neg htr, if_neg htr, if_neg hb]
  unfold split_sentences
  rw [if_pos hlen]
  unfold OnlineBackend.translateList
  dsimp only
  rw [translate_single_hit net st now text sl tl v hcache htr]
  unfold OnlineBackend.translateList
  dsimp only
  rw [show String.intercalate " " [v] = v from rfl]
  rw [if_pos hv]

/-- A failed online request on a fresh (not fallen-back) router whose failure
count stays below 3: the request is served by Marian for this call but
`active` stays `"online"`. -/
theorem router_online_fail (net : String → ReqOutcome) (marian : MarianFn)
    (rt : RouterState) (now : ℚ) (text sl tl : String) (st' : OnlineState)
    (htr : ¬ pyStrip text = "")
    (hnotfallen : rt.fallen_back = false)
    (hactive : rt.active = some "online")
    (hsome : rt.onlineSome = true)
    (hml : rt.marian_loaded = true)
    (havail : OnlineBackend.is_available rt.online now = true)
    (htrans : OnlineBackend.translate net rt.online now text sl tl =
      (Except.error (), st'))
    (hswitch : ¬ 3 ≤ st'.consecutive_failures) :
    (Fallback.translate_raw net marian rt now text sl tl).2 =
      { rt with online := st' } := by
  unfold Fallback.translate_raw
  rw [if_neg htr]
  have h1 : ¬(rt.fallen_back = true ∧ rt.online_loaded = true) := by
    simp [hnotfallen]
  rw [if_neg h1]
  dsimp only
  rw [if_pos hactive]
  unfold Fallback.try_online
  have h2 : ¬¬(rt.onlineSome = true ∧
      OnlineBackend.is_available rt.online now = true) := by
    simp [hsome, havail]
  rw [if_neg h2, htrans]
  dsimp only
  have h3 : ¬(rt.onlineSome = true ∧ 3 ≤ st'.consecutive_failures) := by
    simp only [hsome, true_and]
    exact hswitch
  rw [if_neg h3]
  dsimp only
  rw [if_pos hml]
  rw [try_marian_state]

/-- The failed online request that brings the failure count to 3 switches the
router to Marian, recording `fallen_back` and `last_online_retry = now`. -/
theorem router_online_fail_switch (net : String → ReqOutcome)
    (marian : MarianFn) (rt : RouterState) (now : ℚ) (text sl tl : String)
    (st' : OnlineState)
    (htr : ¬ pyStrip text = "")
    (hnotfallen : rt.fallen_back = false)
    (hactive : rt.active = some "online")
    (hsome : rt.onlineSome = true)
    (hml : rt.marian_loaded = true)
    (havail : OnlineBackend.is_available rt.online now = true)
    (htrans : OnlineBackend.translate net rt.online now text sl tl =
      (Except.error (), st'))
    (hswitch : 3 ≤ st'.consecutive_failures) :
    (Fallback.translate_raw net marian rt now text sl tl).2 =
      { rt with online := st', active := some "marian", fallen_back := true,
                last_online_retry := now } := by
  unfold Fallback.translate_raw
  rw [if_neg htr]
  have h1 : ¬(rt.fallen_back = true ∧ rt.online_loaded = true) := by
    simp [hnotfallen]
  rw [if_neg h1]
  dsimp only
  rw [if_pos hactive]
  unfold Fallback.try_online
  have h2 : ¬¬(rt.onlineSome = true ∧
      OnlineBackend.is_available rt.online now = true) := by
    simp [hsome, havail]
  rw [if_neg h2, htrans]
  dsimp only
  have h3 : rt.onlineSome = true ∧ 3 ≤ st'.consecutive_failures :=
    ⟨hsome, hswitch⟩
  rw [if_pos h3]
  have hsw : Fallback.switch_to_marian { rt with online := st' } now =
      { rt with online := st', active := some "marian", fallen_back := true,
                last_online_retry := now } := by
    unfold Fallback.switch_to_marian
    dsimp only
    rw [if_neg (show ¬(rt.marian_loaded = false) by rw [hml]; decide),
      if_neg (show ¬(rt.active = some "marian") by rw [hactive]; decide)]
  rw [hsw]
  dsimp only
  rw [if_pos hml]
  rw [try_marian_state]

/-- A backend with zero failures and zero backoff is available at any
nonnegative time. -/
theorem is_available_fresh (c : ℚ) (cache : List (CacheKey × String))
    (ts : List ℚ) (t : ℚ) (ht : 0 ≤ t) :
    OnlineBackend.is_available ⟨true, 0, 0, c, cache, ts⟩ t = true := by
  unfold OnlineBackend.is_available
  dsimp only [MAX_CONSECUTIVE_FAILURES]
  rw [if_neg (by omega), if_neg (not_lt.mpr ht)]

/-- A backend whose failure count is still below 3 and whose backoff is zero
is available at any nonnegative time. -/
theorem is_available_nofail (n : ℕ) (hn : n < 3) (c : ℚ)
    (cache : List (CacheKey × String)) (ts : List ℚ) (t : ℚ) (ht : 0 ≤ t) :
    OnlineBackend.is_available ⟨true, n, 0, c, cache, ts⟩ t = true := by
  unfold OnlineBackend.is_available
  dsimp only [MAX_CONSECUTIVE_FAILURES]
  rw [if_neg (by omega), if_neg (not_lt.mpr ht)]

/-- The recovery call: on a fallen-back router whose retry interval has
elapsed, a probe request answered with `s` (nonempty after post-processing)
switches `active` back to online, resets the failure counters and zeroes the
backoff; the caller's own request is then served online (from the cache the
probe just filled). -/
theorem router_probe_recover (marian : MarianFn) (s : String) (n : ℕ)
    (ts : List ℚ) (lor t : ℚ) (sl tl : String)
    (ht : 0 ≤ t) (hretry : ¬ t - lor < 60)
    (hs : ¬ pyStrip (post_process s) = "") :
    Fallback.translate_raw (fun _ => ReqOutcome.ok s) marian
      ⟨⟨true, n, 0, 2, [], ts⟩, true, true, true, true, true,
        some "marian", true, lor⟩ t "hello" sl tl =
    (⟨"hello", post_process s, sl, tl⟩,
     ⟨⟨true, 0, 0, 2, [((sl, tl, pyStrip "hello"), s)],
        ts.filter (fun x => decide (t - 60 < x)) ++ [t]⟩,
      true, true, true, true, true, some "online", false, t⟩) := by
  have hs0 : s ≠ "" := by
    intro h
    apply hs
    rw [h]
    decide
  unfold Fallback.translate_raw
  rw [if_neg (by decide)]
  try dsimp only
  rw [if_pos (⟨rfl, rfl⟩ : (true = true) ∧ (true = true))]
  unfold Fallback.maybe_retry_online
  try dsimp only [ONLINE_RETRY_INTERVAL]
  rw [if_neg hretry]
  try dsimp only
  rw [if_pos (rfl : true = true)]
  unfold OnlineBackend.reset_failures
  try dsimp only
  first
  | rw [if_neg (show ¬¬((true = true) ∧ (true = true)) from
      fun hh => hh ⟨rfl, rfl⟩)]
  | rw [if_neg (show ¬¬(True ∧ True) from fun hh => hh ⟨trivial, trivial⟩)]
  rw [show ("hello" : String).take 50 = "hello" from by decide]
  rw [online_translate_ok (fun _ => ReqOutcome.ok s) _ t "hello" sl tl s rfl
    (by decide) (not_lt.mpr ht) (by decide) rfl hs0]
  try dsimp only
  rw [if_pos hs]
  unfold Fallback.switch_to_online
  try dsimp only
  first
  | rw [if_pos (rfl : true = true)]
  | rw [if_pos (trivial : True)]
  unfold OnlineBackend.reset_failures
  try dsimp only
  rw [if_pos (rfl : some "online" = some "online")]
  unfold Fallback.try_online
  try dsimp only [INITIAL_BACKOFF_SECONDS]
  have hav : OnlineBackend.is_available
      ⟨true, 0, 0, 2, [((sl, tl, pyStrip "hello"), s)],
        List.filter (fun x => decide (t - 60 < x)) ts ++ [t]⟩ t = true :=
    is_available_fresh 2 _ _ t ht
  first
  | rw [if_neg (show ¬¬((true = true) ∧ OnlineBackend.is_available
        ⟨true, 0, 0, 2, [((sl, tl, pyStrip "hello"), s)],
          List.filter (fun x => decide (t - 60 < x)) ts ++ [t]⟩ t = true) from
      fun hh => hh ⟨rfl, hav⟩)]
  | rw [if_neg (show ¬¬(True ∧ OnlineBackend.is_available
        ⟨true, 0, 0, 2, [((sl, tl, pyStrip "hello"), s)],
          List.filter (fun x => decide (t - 60 < x)) ts ++ [t]⟩ t = true) from
      fun hh => hh ⟨trivial, hav⟩)]
  rw [online_translate_hit (fun _ => ReqOutcome.ok s) _ t "hello" sl tl s rfl
    (by decide) (not_lt.mpr ht) (by decide) hs0]
  try dsimp only
  rw [if_neg hs]

end EchoFlux

namespace EchoFlux

/-! ## Claim theorems -/

/-- Claim C7, counterexample: on the spec's own test string the cleaner does
not return `"work with humans and"`, even up to trailing whitespace. -/
theorem ngram_collapse_cex :
    pyStrip (remove_repetitions
        "work with humans and work with humans and work with humans") ≠
      "work with humans and" := by decide

/-- Claim C7 (amended): on
`"work with humans and work with humans and work with humans"` the cleaner
collapses the two adjacent copies of the 4-gram `work with humans and` and
keeps the trailing non-adjacent `work with humans`, returning
`"work with humans and work with humans"`. -/
theorem ngram_collapse_value :
    remove_repetitions
        "work with humans and work with humans and work with humans" =
      "work with humans and work with humans" := by decide

/-- Claim C8, counterexample: the three-pass cleaner is not idempotent — on
`"b b a c b b a x a a y a"` the first pass-3 trim (dominant word `a`) leaves
`"b b a c b b a x a"`, in which `b` has become dominant, so a second
application trims again. -/
theorem clean_idempotent_cex :
    remove_repetitions (remove_repetitions "b b a c b b a x a a y a") ≠
      remove_repetitions "b b a c b b a x a a y a" := by decide

/-- Claim C8 (amended): the cleaner is idempotent on every input it leaves
unchanged by its guards — texts of fewer than 10 characters or fewer than
3 words — but not on all inputs (see the counterexample): re-cleaning can trim
further via the dominant-word pass. -/
theorem clean_idempotent_short (x : String)
    (h : x.length < 10 ∨ (pySplit x).length < 3) :
    remove_repetitions (remove_repetitions x) = remove_repetitions x := by
  have hid : remove_repetitions x = x := cleanCore_short_id 10 2 11 x h
  rw [hid]
  exact hid

theorem clean_idempotent_short_w :
    remove_repetitions (remove_repetitions "hi there") =
      remove_repetitions "hi there" :=
  clean_idempotent_short "hi there" (Or.inl (by decide))

/-- Claim C9, counterexample: the translation post-processor and the ASR
cleaner are not extensionally equal — on `"hello hello world"` the
post-processor keeps one `hello` (its pass 1 keeps a single occurrence) while
the ASR cleaner keeps both. -/
theorem post_process_neq_cex :
    post_process "hello hello world" ≠
      remove_repetitions "hello hello world" := by decide

/-- Claim C9 (amended): `post_process` runs a three-pass repetition cleaner of
the same structure as the ASR cleaner of §4.2 but with different parameters
(length guard 5 vs 10, one vs two consecutive repeats kept, n-grams 2–8 vs
2–10), so the two functions are not extensionally equal; they do agree on
every text of fewer than three words. -/
theorem post_process_agrees_short (x : String)
    (h : (pySplit x).length < 3) :
    post_process x = remove_repetitions x := by
  unfold post_process remove_repetitions
  rw [cleanCore_short_id 5 1 9 x (Or.inr h),
    cleanCore_short_id 10 2 11 x (Or.inr h)]

theorem post_process_agrees_short_w :
    post_process "good day" = remove_repetitions "good day" :=
  post_process_agrees_short "good day" (by decide)

/-- Claim C6, counterexample: with duration `d = 5/4 s` and eight words, the
code's `int(d * 5.0)` truncation gives a budget of `max(5, 6) = 6` words, not
the claimed `max(5, ⌈d⋅5⌉) = 7`. -/
theorem enforce_length_ceil_cex :
    enforce_length_limit "a b c d e f g h" (5 / 4) = "a b c d e f" ∧
    (pySplit (enforce_length_limit "a b c d e f g h" (5 / 4))).length ≠
      max 5 (⌈(5 / 4 : ℚ) * 5⌉.toNat) := by
  have hfloor : (⌊(5 / 4 : ℚ) * MAX_WORDS_PER_SECOND⌋) = 6 := by
    norm_num [MAX_WORDS_PER_SECOND]
  have h1 : enforce_length_limit "a b c d e f g h" (5 / 4) = "a b c d e f" := by
    unfold enforce_length_limit
    rw [hfloor]
    decide
  have hceil : (⌈(5 / 4 : ℚ) * 5⌉) = 7 := by
    rw [Int.ceil_eq_iff]
    norm_num
  refine ⟨h1, ?_⟩
  rw [h1, hceil]
  decide

/-- Claim C6 (amended): for every text with more than
`max(5, ⌊d × 5⌋)` words and duration `d ≥ 0.2 s`, `_enforce_length_limit`
returns exactly the first `max(5, ⌊d × 5⌋)` words joined by single spaces —
⌊⌋, not ⌈⌉, because Python's `int()` truncates. -/
theorem enforce_length_floor (text : String) (d : ℚ)
    (hd : (1 : ℚ) / 5 ≤ d)
    (hlong : max 5 (⌊d * MAX_WORDS_PER_SECOND⌋.toNat) < (pySplit text).length) :
    enforce_length_limit text d =
      String.intercalate " "
        ((pySplit text).take (max 5 (⌊d * MAX_WORDS_PER_SECOND⌋.toNat))) ∧
    ((pySplit text).take (max 5 (⌊d * MAX_WORDS_PER_SECOND⌋.toNat))).length =
      max 5 (⌊d * MAX_WORDS_PER_SECOND⌋.toNat) := by
  have hmax : max (⌊d * MAX_WORDS_PER_SECOND⌋.toNat) 5 =
      max 5 (⌊d * MAX_WORDS_PER_SECOND⌋.toNat) := Nat.max_comm _ _
  constructor
  · unfold enforce_length_limit
    rw [hmax, if_pos hlong]
  · rw [List.length_take]
    omega

theorem enforce_length_floor_w :
    enforce_length_limit "a b c d e f g h" (5 / 4) =
      String.intercalate " " ((pySplit "a b c d e f g h").take
        (max 5 (⌊(5 / 4 : ℚ) * MAX_WORDS_PER_SECOND⌋.toNat))) ∧
    ((pySplit "a b c d e f g h").take
        (max 5 (⌊(5 / 4 : ℚ) * MAX_WORDS_PER_SECOND⌋.toNat))).length =
      max 5 (⌊(5 / 4 : ℚ) * MAX_WORDS_PER_SECOND⌋.toNat) := by
  have hfloor : (⌊(5 / 4 : ℚ) * MAX_WORDS_PER_SECOND⌋) = 6 := by
    norm_num [MAX_WORDS_PER_SECOND]
  exact enforce_length_floor "a b c d e f g h" (5 / 4) (by norm_num)
    (by rw [hfloor]; decide)

/-- Claim C3, counterexample: the gate has no pad counters.  A single
512-sample window with probability 1 (> threshold 1/2) flips a silent gate to
speech immediately (the claim requires 3 consecutive speech-positive frames),
and eight consecutive silent frames (probability 0) leave a speaking gate in
the speech state (the claim requires the gate to fall back to silence after
8 consecutive speech-negative frames). -/
theorem vad_no_hysteresis_cex :
    ((VAD.process (fun (u : Unit) (_ : List ℚ) => ((1 : ℚ), u))
        ⟨true, true, 1 / 2, [], false, ()⟩ (List.replicate 512 0)).1 = true ∧
     (VAD.process (fun (u : Unit) (_ : List ℚ) => ((1 : ℚ), u))
        ⟨true, true, 1 / 2, [], false, ()⟩
        (List.replicate 512 0)).2.isSpeech = true) ∧
    ((fun s => (VAD.process (fun (u : Unit) (_ : List ℚ) => ((0 : ℚ), u)) s
        (List.replicate 512 0)).2)^[8]
      ⟨true, true, 1 / 2, [], true, ()⟩).isSpeech = true := by
  constructor
  · have h := process_one_window (fun (u : Unit) (_ : List ℚ) => ((1 : ℚ), u))
      ⟨true, true, 1 / 2, [], false, ()⟩ (List.replicate 512 0) rfl rfl rfl
      (by rw [List.length_replicate]; rfl)
    rw [h.1, h.2]
    norm_num
  · have latch : ∀ s : VadState Unit, s.isSpeech = true →
        ((VAD.process (fun (u : Unit) (_ : List ℚ) => ((0 : ℚ), u)) s
          (List.replicate 512 0)).2).isSpeech = true :=
      fun s hs => (process_latch _ s _ hs).2
    have hiter : ∀ (n : ℕ) (s : VadState Unit), s.isSpeech = true →
        ((fun s => (VAD.process (fun (u : Unit) (_ : List ℚ) => ((0 : ℚ), u)) s
          (List.replicate 512 0)).2)^[n] s).isSpeech = true := by
      intro n
      induction n with
      | zero =>
        intro s hs
        rw [Function.iterate_zero_apply]
        exact hs
      | succ n ih =>
        intro s hs
        rw [Function.iterate_succ_apply]
        exact ih _ (latch s hs)
    exact hiter 8 _ rfl

/-- Claim C3 (amended): the gate applies no hysteresis.  Starting from an
empty accumulator, one full 512-sample window is processed per call, and the
gate's decision after the call is `previous state OR (probability >
threshold)`: a single speech-positive window flips silence to speech, and no
speech-negative window ever flips speech back to silence (only `reset`
does). -/
theorem vad_single_window_flip {HC : Type} (infer : HC → List ℚ → ℚ × HC)
    (st : VadState HC) (chunk : List ℤ)
    (hen : st.enabled = true) (hse : st.sessionLoaded = true)
    (hbuf : st.buffer = []) (hlen : chunk.length = WINDOW_SIZE_SAMPLES) :
    (VAD.process infer st chunk).1 =
      (st.isSpeech || decide (st.threshold <
        (infer st.hc (bytes_to_float32 chunk)).1)) ∧
    (VAD.process infer st chunk).2.isSpeech =
      (st.isSpeech || decide (st.threshold <
        (infer st.hc (bytes_to_float32 chunk)).1)) :=
  process_one_window infer st chunk hen hse hbuf hlen

theorem vad_single_window_flip_w :
    (VAD.process (fun (u : Unit) (_ : List ℚ) => ((1 : ℚ), u))
      ⟨true, true, 1 / 2, [], false, ()⟩ (List.replicate 512 0)).1 = true := by
  have h := vad_single_window_flip (fun (u : Unit) (_ : List ℚ) => ((1 : ℚ), u))
    ⟨true, true, 1 / 2, [], false, ()⟩ (List.replicate 512 0) rfl rfl rfl
    (by rw [List.length_replicate]; rfl)
  rw [h.1]
  norm_num

/-- Claim C10: on an enabled gate with a loaded session, the speech state
latches — once set, every `process` call returns `True` and keeps the state
set, whatever audio arrives; only `reset` clears it. -/
theorem vad_latch_until_reset {HC : Type} (zero : HC)
    (infer : HC → List ℚ → ℚ × HC) (st : VadState HC) (chunk : List ℤ)
    (hen : st.enabled = true) (hse : st.sessionLoaded = true)
    (hsp : st.isSpeech = true) :
    (VAD.process infer st chunk).1 = true ∧
    (VAD.process infer st chunk).2.isSpeech = true ∧
    (VAD.reset zero st).isSpeech = false := by
  obtain ⟨h1, h2⟩ := process_latch infer st chunk hsp
  exact ⟨h1, h2, rfl⟩

/-- Claim C1, counterexample: a non-final inference in which the decoder
returns two segments (`"hello"` ending at 0.2 s and `"world"` ending at
0.3 s) emits the joined text of **all** segments as a **partial** result
(`is_final = false`), and the audio window is left untouched — there is no
segment-boundary commit, no final segment `"hello"`, and no truncation by
`segments[-2].end × sample_rate`. -/
theorem inference_two_segments_cex :
    (run_inference
        (fun _ => Except.ok ⟨[⟨"hello", 1 / 5⟩, ⟨"world", 3 / 10⟩], "en"⟩)
        ⟨true, List.replicate 4800 0, 0, "", 3 / 10, 4⟩ false).1 =
      Except.ok (some ⟨"hello world", false, "en"⟩) ∧
    (run_inference
        (fun _ => Except.ok ⟨[⟨"hello", 1 / 5⟩, ⟨"world", 3 / 10⟩], "en"⟩)
        ⟨true, List.replicate 4800 0, 0, "", 3 / 10, 4⟩ false).2.buffer =
      List.replicate 4800 0 := by
  have hraw : raw_text_of ⟨[⟨"hello", 1 / 5⟩, ⟨"world", 3 / 10⟩], "en"⟩ =
      "hello world" := by decide
  have hclean : cleaned_text_of ⟨true, List.replicate 4800 0, 0, "", 3 / 10, 4⟩
      ⟨[⟨"hello", 1 / 5⟩, ⟨"world", 3 / 10⟩], "en"⟩ = "hello world" := by
    unfold cleaned_text_of
    rw [hraw, show remove_repetitions "hello world" = "hello world" from by decide]
    exact enforce_under_limit _ _ (by
      have h5 : 5 ≤ max (⌊((List.replicate (4800 : ℕ) (0 : ℚ)).length : ℚ) /
          (asrSampleRate : ℚ) * MAX_WORDS_PER_SECOND⌋.toNat) 5 :=
        Nat.le_max_right _ _
      have h2 : (pySplit "hello world").length = 2 := by decide
      omega)
  have h := run_inference_partial
    (fun _ => Except.ok ⟨[⟨"hello", 1 / 5⟩, ⟨"world", 3 / 10⟩], "en"⟩)
    ⟨true, List.replicate 4800 0, 0, "", 3 / 10, 4⟩
    ⟨[⟨"hello", 1 / 5⟩, ⟨"world", 3 / 10⟩], "en"⟩ rfl rfl
    (by rw [hraw]; decide) (by rw [hclean]; decide)
    (by rw [hclean, hraw]; decide)
  rw [h, hclean]
  exact ⟨rfl, rfl⟩

/-- Claim C1 (amended): whenever the decoder returns two or more segments in a
non-final inference whose joined text survives the cleaning filters and the
hallucination check, the engine emits the cleaned concatenation of **all**
segments' text as a **partial** result; the audio window is unchanged — the
engine performs no segment-boundary commit. -/
theorem inference_two_segments_partial (model : DecodeFn) (st : AsrState)
    (out : DecodeOut) (hm : model st.buffer = Except.ok out)
    (h2 : 2 ≤ out.segments.length)
    (hraw : raw_text_of out ≠ "")
    (hcl : pyStrip (cleaned_text_of st out) ≠ "")
    (hhal : ¬ 10 * (cleaned_text_of st out).length <
      7 * (raw_text_of out).length) :
    run_inference model st false =
      (Except.ok (some ⟨cleaned_text_of st out, false, out.language⟩),
       { st with lastStableText := cleaned_text_of st out }) := by
  have hne : out.segments.isEmpty = false := by
    cases hs : out.segments with
    | nil => rw [hs] at h2; simp at h2
    | cons a l => rfl
  exact run_inference_partial model st out hm hne hraw hcl hhal

theorem inference_two_segments_partial_w :
    run_inference (fun _ => Except.ok ⟨[⟨"one", 1 / 2⟩, ⟨"two", 1⟩], "en"⟩)
        ⟨true, List.replicate 16000 0, 0, "", 3 / 10, 4⟩ false =
      (Except.ok (some ⟨cleaned_text_of
          ⟨true, List.replicate 16000 0, 0, "", 3 / 10, 4⟩
          ⟨[⟨"one", 1 / 2⟩, ⟨"two", 1⟩], "en"⟩, false, "en"⟩),
       { modelLoaded := true, buffer := List.replicate 16000 0,
         lastInferenceTime := 0,
         lastStableText := cleaned_text_of
           ⟨true, List.replicate 16000 0, 0, "", 3 / 10, 4⟩
           ⟨[⟨"one", 1 / 2⟩, ⟨"two", 1⟩], "en"⟩,
         inferenceInterval := 3 / 10, maxBufferDuration := 4 }) := by
  have hraw : raw_text_of ⟨[⟨"one", 1 / 2⟩, ⟨"two", 1⟩], "en"⟩ = "one two" := by
    decide
  have hclean : cleaned_text_of ⟨true, List.replicate 16000 0, 0, "", 3 / 10, 4⟩
      ⟨[⟨"one", 1 / 2⟩, ⟨"two", 1⟩], "en"⟩ = "one two" := by
    unfold cleaned_text_of
    rw [hraw, show remove_repetitions "one two" = "one two" from by decide]
    exact enforce_under_limit _ _ (by
      have h5 : 5 ≤ max (⌊((List.replicate (16000 : ℕ) (0 : ℚ)).length : ℚ) /
          (asrSampleRate : ℚ) * MAX_WORDS_PER_SECOND⌋.toNat) 5 :=
        Nat.le_max_right _ _
      have h2 : (pySplit "one two").length = 2 := by decide
      omega)
  exact inference_two_segments_partial
    (fun _ => Except.ok ⟨[⟨"one", 1 / 2⟩, ⟨"two", 1⟩], "en"⟩)
    ⟨true, List.replicate 16000 0, 0, "", 3 / 10, 4⟩
    ⟨[⟨"one", 1 / 2⟩, ⟨"two", 1⟩], "en"⟩ rfl (by decide)
    (by rw [hraw]; decide) (by rw [hclean]; decide)
    (by rw [hclean, hraw]; decide)

/-- Claim C2: for any call on a loaded engine that returns (rather than
raises), the post-call window length never exceeds
`max_buffer_duration × sample_rate` plus the incoming chunk's samples, and
whenever the appended chunk pushes the window over the cap the forced
finalize leaves the window empty before the call returns. -/
theorem transcribe_stream_window_cap (model : DecodeFn) (st : AsrState)
    (chunk : List ℤ) (now : ℚ) (hload : st.modelLoaded = true)
    (r : Except String (Option TranscriptResult))
    (hok : (transcribe_stream model st chunk now).1 = r)
    (hnoexc : ∀ e, r ≠ Except.error e) :
    (transcribe_stream model st chunk now).2.buffer.length ≤
      asrMaxSamples st + chunk.length ∧
    (asrMaxSamples st < st.buffer.length + chunk.length →
      (transcribe_stream model st chunk now).2.buffer = []) := by
  have hblen : (st.buffer ++ bytes_to_float32 chunk).length =
      st.buffer.length + chunk.length := by
    rw [List.length_append, bytes_to_float32, List.length_map]
  unfold transcribe_stream at hok ⊢
  rw [if_neg (by simp [hload])] at hok ⊢
  dsimp only at hok ⊢
  by_cases hcap : asrMaxSamples st < (st.buffer ++ bytes_to_float32 chunk).length
  · rw [if_pos hcap] at hok ⊢
    have hclear : (run_finalize model
        { st with buffer := st.buffer ++ bytes_to_float32 chunk }).2.buffer = []
        → True := fun _ => trivial
    generalize hf : run_finalize model
      { st with buffer := st.buffer ++ bytes_to_float32 chunk } = p at hok ⊢
    obtain ⟨res, st'⟩ := p
    have hst' : st'.buffer = [] ∨ res = Except.error ((fun e => e) "") → True :=
      fun _ => trivial
    cases res with
    | error e =>
      exact absurd (hok ▸ rfl) (hnoexc e)
    | ok o =>
      have hbuf' : st'.buffer = [] := by
        have := run_finalize_ok_clears model
          { st with buffer := st.buffer ++ bytes_to_float32 chunk }
          (by simpa using hload)
          (by show (st.buffer ++ bytes_to_float32 chunk).length ≠ 0; omega)
          o (by rw [hf])
        rw [hf] at this
        exact this
      cases o with
      | some r' =>
        constructor
        · simp [hbuf']
        · intro _; exact hbuf'
      | none =>
        rcases stream_after_cap_buffer model st' now with h | h
        · rw [h, hbuf']
          exact ⟨by simp, fun _ => rfl⟩
        · rw [h]
          exact ⟨by simp, fun _ => rfl⟩
  · rw [if_neg hcap] at hok ⊢
    rcases stream_after_cap_buffer model
      { st with buffer := st.buffer ++ bytes_to_float32 chunk } now with h | h
    · rw [h]
      constructor
      · dsimp only
        rw [hblen]
        omega
      · intro hover
        exact absurd (by omega : asrMaxSamples st <
          (st.buffer ++ bytes_to_float32 chunk).length) hcap
    · rw [h]
      exact ⟨by simp, fun _ => rfl⟩

theorem transcribe_stream_window_cap_w :
    (transcribe_stream (fun _ => Except.ok ⟨[], "en"⟩)
        ⟨true, [0], 0, "", 3 / 10, 4⟩ [0] 0).2.buffer.length ≤
      asrMaxSamples ⟨true, [0], 0, "", 3 / 10, 4⟩ + [(0 : ℤ)].length ∧
    (asrMaxSamples ⟨true, [0], 0, "", 3 / 10, 4⟩ <
        ([(0 : ℚ)] : List ℚ).length + [(0 : ℤ)].length →
      (transcribe_stream (fun _ => Except.ok ⟨[], "en"⟩)
        ⟨true, [0], 0, "", 3 / 10, 4⟩ [0] 0).2.buffer = []) := by
  have hmax : asrMaxSamples ⟨true, [0], 0, "", 3 / 10, 4⟩ = 64000 := by
    have h4 : (⌊(4 : ℚ) * (asrSampleRate : ℚ)⌋) = 64000 := by
      norm_num [asrSampleRate]
    rw [asrMaxSamples, h4]
    rfl
  have hstream : (transcribe_stream (fun _ => Except.ok ⟨[], "en"⟩)
      ⟨true, [0], 0, "", 3 / 10, 4⟩ [0] 0).1 = Except.ok none := by
    unfold transcribe_stream
    rw [if_neg (by simp)]
    dsimp only
    rw [if_neg (by rw [hmax]; simp [bytes_to_float32])]
    unfold stream_after_cap
    rw [if_pos (by norm_num)]
  exact transcribe_stream_window_cap (fun _ => Except.ok ⟨[], "en"⟩)
    ⟨true, [0], 0, "", 3 / 10, 4⟩ [0] 0 rfl (Except.ok none) hstream
    (fun e h => Except.noConfusion h)

/-- Claim C5, counterexample: `transcribe_stream` has no handler around the
decode call — a raised exception propagates to the caller instead of the call
returning `None`. -/
theorem transcribe_stream_error_cex :
    (transcribe_stream (fun _ => Except.error "boom")
        ⟨true, List.replicate 4800 0, 0, "", 3 / 10, 4⟩ [] 1).1 =
      Except.error "boom" := by
  have h := transcribe_stream_error_eq (fun _ => Except.error "boom")
    ⟨true, List.replicate 4800 0, 0, "", 3 / 10, 4⟩ [] 1 "boom" rfl rfl
    (by
      have hm : asrMaxSamples ⟨true, List.replicate 4800 0, 0, "", 3 / 10, 4⟩ =
          64000 := by
        have : (⌊(4 : ℚ) * (asrSampleRate : ℚ)⌋) = 64000 := by
          norm_num [asrSampleRate]
        rw [asrMaxSamples, this]
        rfl
      rw [hm]
      simp only [bytes_to_float32, List.map_nil, List.append_nil,
        List.length_replicate]
      omega)
    (by norm_num)
    (by
      rw [asrMinSamples_eq]
      simp only [bytes_to_float32, List.map_nil, List.append_nil,
        List.length_replicate]
      omega)
  rw [h]

/-- Claim C5 (amended): a transient exception raised by the model's
`transcribe` call propagates out of `transcribe_stream` — the call does not
return `None`; no error state is entered (the post-raise state keeps the
appended window and updated throttle timestamp, and the engine stays
usable). -/
theorem transcribe_stream_error_propagates (model : DecodeFn) (st : AsrState)
    (chunk : List ℤ) (now : ℚ) (e : String)
    (hload : st.modelLoaded = true)
    (hm : model (st.buffer ++ bytes_to_float32 chunk) = Except.error e)
    (hcap : ¬ asrMaxSamples st < (st.buffer ++ bytes_to_float32 chunk).length)
    (ht : ¬ now - st.lastInferenceTime < st.inferenceInterval)
    (hmin : ¬ (st.buffer ++ bytes_to_float32 chunk).length < asrMinSamples) :
    transcribe_stream model st chunk now =
      (Except.error e,
       { st with buffer := st.buffer ++ bytes_to_float32 chunk,
                 lastInferenceTime := now }) :=
  transcribe_stream_error_eq model st chunk now e hload hm hcap ht hmin

theorem transcribe_stream_error_propagates_w :
    (transcribe_stream (fun _ => Except.error "net down")
        ⟨true, List.replicate 4800 0, 0, "", 3 / 10, 4⟩ [] 1).1 =
      Except.error "net down" := by
  have h := transcribe_stream_error_propagates (fun _ => Except.error "net down")
    ⟨true, List.replicate 4800 0, 0, "", 3 / 10, 4⟩ [] 1 "net down" rfl rfl
    (by
      have hm : asrMaxSamples ⟨true, List.replicate 4800 0, 0, "", 3 / 10, 4⟩ =
          64000 := by
        have : (⌊(4 : ℚ) * (asrSampleRate : ℚ)⌋) = 64000 := by
          norm_num [asrSampleRate]
        rw [asrMaxSamples, this]
        rfl
      rw [hm]
      simp only [bytes_to_float32, List.map_nil, List.append_nil,
        List.length_replicate]
      omega)
    (by norm_num)
    (by
      rw [asrMinSamples_eq]
      simp only [bytes_to_float32, List.map_nil, List.append_nil,
        List.length_replicate]
      omega)
  rw [h]

theorem vad_latch_until_reset_w :
    (VAD.process (fun (u : Unit) (_ : List ℚ) => ((0 : ℚ), u))
      ⟨true, true, 1 / 2, [], true, ()⟩ (List.replicate 512 0)).1 = true ∧
    (VAD.process (fun (u : Unit) (_ : List ℚ) => ((0 : ℚ), u))
      ⟨true, true, 1 / 2, [], true, ()⟩
      (List.replicate 512 0)).2.isSpeech = true ∧
    (VAD.reset () ⟨true, true, 1 / 2, [], true, ()⟩).isSpeech = false :=
  vad_latch_until_reset () _ _ (List.replicate 512 0) rfl rfl rfl

/-- Claim C4, counterexample: three consecutive online request failures of the
`TranslationError` kind (rate limits, network errors, timeouts, bad HTTP
statuses — everything `_do_request` raises) do **not** switch the active
backend: `_translate_single` re-raises a `TranslationError` without calling
`_on_failure`, so `consecutive_failures` stays 0 and `active` remains
`"online"` after the three failing calls at t = 100, 101, 102. -/
theorem router_plain_failures_cex :
    (Fallback.translate_raw (fun _ => ReqOutcome.transErrPlain)
        (fun _ _ _ => Except.ok "hola")
        (Fallback.translate_raw (fun _ => ReqOutcome.transErrPlain)
          (fun _ _ _ => Except.ok "hola")
          (Fallback.translate_raw (fun _ => ReqOutcome.transErrPlain)
            (fun _ _ _ => Except.ok "hola")
            ⟨⟨true, 0, 0, 2, [], []⟩, true, true, true, true, true,
              some "online", false, 0⟩ 100 "hello" "en" "es").2
          101 "hello" "en" "es").2
        102 "hello" "en" "es").2.active = some "online" ∧
    (Fallback.translate_raw (fun _ => ReqOutcome.transErrPlain)
        (fun _ _ _ => Except.ok "hola")
        (Fallback.translate_raw (fun _ => ReqOutcome.transErrPlain)
          (fun _ _ _ => Except.ok "hola")
          (Fallback.translate_raw (fun _ => ReqOutcome.transErrPlain)
            (fun _ _ _ => Except.ok "hola")
            ⟨⟨true, 0, 0, 2, [], []⟩, true, true, true, true, true,
              some "online", false, 0⟩ 100 "hello" "en" "es").2
          101 "hello" "en" "es").2
        102 "hello" "en" "es").2.online.consecutive_failures = 0 := by
  have hcall : ∀ (ts : List ℚ) (lor t : ℚ), 0 ≤ t →
      (Fallback.translate_raw (fun _ => ReqOutcome.transErrPlain)
        (fun _ _ _ => Except.ok "hola")
        ⟨⟨true, 0, 0, 2, [], ts⟩, true, true, true, true, true,
          some "online", false, lor⟩ t "hello" "en" "es").2 =
      ⟨⟨true, 0, 0, 2, [], ts.filter (fun x => decide (t - 60 < x)) ++ [t]⟩,
        true, true, true, true, true, some "online", false, lor⟩ := by
    intro ts lor t ht
    exact router_online_fail _ _ _ t "hello" "en" "es" _
      (by decide) rfl rfl rfl rfl (is_available_fresh 2 [] ts t ht)
      (online_translate_fail _ _ t "hello" "en" "es" _ (by decide)
        (not_lt.mpr ht) (by decide)
        (translate_single_transErr _ _ t "hello" "en" "es" rfl (by decide) rfl))
      (show ¬ (3 : ℕ) ≤ 0 by omega)
  rw [hcall [] 0 100 (by norm_num), hcall _ 0 101 (by norm_num),
    hcall _ 0 102 (by norm_num)]
  exact ⟨rfl, rfl⟩

/-- Claim C4 (amended): only failures that escape `_do_request` as something
other than a `TranslationError` (e.g. response-parse errors) are counted by
`_on_failure`.  Three consecutive such failures switch `active` to the local
Marian backend, recording `fallen_back` and `last_online_retry`; once
`ONLINE_RETRY_INTERVAL = 60 s` has elapsed, the next call probes the online
backend, and a probe whose result is non-empty after post-processing switches
`active` back to online and resets the failure counters and backoff. -/
theorem router_failover_and_probe (marian : MarianFn) (s : String)
    (t1 t2 t3 t4 : ℚ) (sl tl : String)
    (h1 : 0 ≤ t1) (h2 : 0 ≤ t2) (h3 : 0 ≤ t3)
    (h4 : t3 + ONLINE_RETRY_INTERVAL ≤ t4)
    (hs : ¬ pyStrip (post_process s) = "") :
    ∃ ts3 ts4 : List ℚ,
      (Fallback.translate_raw (fun _ => ReqOutcome.otherExc) marian
          (Fallback.translate_raw (fun _ => ReqOutcome.otherExc) marian
            (Fallback.translate_raw (fun _ => ReqOutcome.otherExc) marian
              ⟨⟨true, 0, 0, 2, [], []⟩, true, true, true, true, true,
                some "online", false, 0⟩ t1 "hello" sl tl).2
            t2 "hello" sl tl).2
          t3 "hello" sl tl).2 =
        ⟨⟨true, 3, 0, 2, [], ts3⟩, true, true, true, true, true,
          some "marian", true, t3⟩ ∧
      Fallback.translate_raw (fun _ => ReqOutcome.ok s) marian
          (Fallback.translate_raw (fun _ => ReqOutcome.otherExc) marian
            (Fallback.translate_raw (fun _ => ReqOutcome.otherExc) marian
              (Fallback.translate_raw (fun _ => ReqOutcome.otherExc) marian
                ⟨⟨true, 0, 0, 2, [], []⟩, true, true, true, true, true,
                  some "online", false, 0⟩ t1 "hello" sl tl).2
              t2 "hello" sl tl).2
            t3 "hello" sl tl).2
          t4 "hello" sl tl =
        (⟨"hello", post_process s, sl, tl⟩,
         ⟨⟨true, 0, 0, 2, [((sl, tl, pyStrip "hello"), s)], ts4⟩,
          true, true, true, true, true, some "online", false, t4⟩) := by
  have hc1 : (Fallback.translate_raw (fun _ => ReqOutcome.otherExc) marian
      ⟨⟨true, 0, 0, 2, [], []⟩, true, true, true, true, true,
        some "online", false, 0⟩ t1 "hello" sl tl).2 =
      ⟨⟨true, 1, 0, 2, [], [t1]⟩, true, true, true, true, true,
        some "online", false, 0⟩ :=
    router_online_fail _ marian _ t1 "hello" sl tl ⟨true, 1, 0, 2, [], [t1]⟩
      (by decide) rfl rfl rfl rfl (is_available_fresh 2 [] [] t1 h1)
      (online_translate_fail _ _ t1 "hello" sl tl _ (by decide)
        (not_lt.mpr h1) (by decide)
        (translate_single_otherExc _ _ t1 "hello" sl tl rfl (by decide) rfl))
      (show ¬ (3 : ℕ) ≤ 1 by omega)
  have hc2 : (Fallback.translate_raw (fun _ => ReqOutcome.otherExc) marian
      ⟨⟨true, 1, 0, 2, [], [t1]⟩, true, true, true, true, true,
        some "online", false, 0⟩ t2 "hello" sl tl).2 =
      ⟨⟨true, 2, 0, 2, [],
          List.filter (fun x => decide (t2 - 60 < x)) [t1] ++ [t2]⟩,
        true, true, true, true, true, some "online", false, 0⟩ :=
    router_online_fail _ marian _ t2 "hello" sl tl
      ⟨true, 2, 0, 2, [],
        List.filter (fun x => decide (t2 - 60 < x)) [t1] ++ [t2]⟩
      (by decide) rfl rfl rfl rfl (is_available_nofail 1 (by omega) 2 [] [t1] t2 h2)
      (online_translate_fail _ _ t2 "hello" sl tl _ (by decide)
        (not_lt.mpr h2) (by decide)
        (translate_single_otherExc _ _ t2 "hello" sl tl rfl (by decide) rfl))
      (show ¬ (3 : ℕ) ≤ 2 by omega)
  have hc3 : (Fallback.translate_raw (fun _ => ReqOutcome.otherExc) marian
      ⟨⟨true, 2, 0, 2, [],
          List.filter (fun x => decide (t2 - 60 < x)) [t1] ++ [t2]⟩,
        true, true, true, true, true, some "online", false, 0⟩
      t3 "hello" sl tl).2 =
      ⟨⟨true, 3, 0, 2, [],
          List.filter (fun x => decide (t3 - 60 < x))
            (List.filter (fun x => decide (t2 - 60 < x)) [t1] ++ [t2]) ++ [t3]⟩,
        true, true, true, true, true, some "marian", true, t3⟩ :=
    router_online_fail_switch _ marian _ t3 "hello" sl tl
      ⟨true, 3, 0, 2, [],
        List.filter (fun x => decide (t3 - 60 < x))
          (List.filter (fun x => decide (t2 - 60 < x)) [t1] ++ [t2]) ++ [t3]⟩
      (by decide) rfl rfl rfl rfl
      (is_available_nofail 2 (by omega) 2 []
        (List.filter (fun x => decide (t2 - 60 < x)) [t1] ++ [t2]) t3 h3)
      (online_translate_fail _ _ t3 "hello" sl tl _ (by decide)
        (not_lt.mpr h3) (by decide)
        (translate_single_otherExc _ _ t3 "hello" sl tl rfl (by decide) rfl))
      (le_refl 3)
  have h4' : t3 + 60 ≤ t4 := by
    simpa [ONLINE_RETRY_INTERVAL] using h4
  have ht4 : 0 ≤ t4 := by linarith
  have hretry : ¬ t4 - t3 < 60 := by
    intro hlt
    linarith
  have hc4 := router_probe_recover marian s 3
    (List.filter (fun x => decide (t3 - 60 < x))
      (List.filter (fun x => decide (t2 - 60 < x)) [t1] ++ [t2]) ++ [t3])
    t3 t4 sl tl ht4 hretry hs
  refine ⟨List.filter (fun x => decide (t3 - 60 < x))
      (List.filter (fun x => decide (t2 - 60 < x)) [t1] ++ [t2]) ++ [t3],
    List.filter (fun x => decide (t4 - 60 < x))
      (List.filter (fun x => decide (t3 - 60 < x))
        (List.filter (fun x => decide (t2 - 60 < x)) [t1] ++ [t2]) ++ [t3])
      ++ [t4], ?_, ?_⟩
  · rw [hc1, hc2]
    exact hc3
  · rw [hc1, hc2, hc3]
    exact hc4

/-- Witness for the amended Claim C4 theorem at concrete inputs: three
parse-style failures at t = 0 on text `"hello"` (en→es) switch the router to
Marian with `last_online_retry = 0`, and the call at t = 60 with the online
backend answering `"bonjour"` probes, recovers and serves the request
online. -/
theorem router_failover_and_probe_w :
    ∃ ts3 ts4 : List ℚ,
      (Fallback.translate_raw (fun _ => ReqOutcome.otherExc)
          (fun _ _ _ => Except.ok "hola")
          (Fallback.translate_raw (fun _ => ReqOutcome.otherExc)
            (fun _ _ _ => Except.ok "hola")
            (Fallback.translate_raw (fun _ => ReqOutcome.otherExc)
              (fun _ _ _ => Except.ok "hola")
              ⟨⟨true, 0, 0, 2, [], []⟩, true, true, true, true, true,
                some "online", false, 0⟩ 0 "hello" "en" "es").2
            0 "hello" "en" "es").2
          0 "hello" "en" "es").2 =
        ⟨⟨true, 3, 0, 2, [], ts3⟩, true, true, true, true, true,
          some "marian", true, 0⟩ ∧
      Fallback.translate_raw (fun _ => ReqOutcome.ok "bonjour")
          (fun _ _ _ => Except.ok "hola")
          (Fallback.translate_raw (fun _ => ReqOutcome.otherExc)
            (fun _ _ _ => Except.ok "hola")
            (Fallback.translate_raw (fun _ => ReqOutcome.otherExc)
              (fun _ _ _ => Except.ok "hola")
              (Fallback.translate_raw (fun _ => ReqOutcome.otherExc)
                (fun _ _ _ => Except.ok "hola")
                ⟨⟨true, 0, 0, 2, [], []⟩, true, true, true, true, true,
                  some "online", false, 0⟩ 0 "hello" "en" "es").2
              0 "hello" "en" "es").2
            0 "hello" "en" "es").2
          60 "hello" "en" "es" =
        (⟨"hello", post_process "bonjour", "en", "es"⟩,
         ⟨⟨true, 0, 0, 2, [(("en", "es", pyStrip "hello"), "bonjour")], ts4⟩,
          true, true, true, true, true, some "online", false, 60⟩) :=
  router_failover_and_probe (fun _ _ _ => Except.ok "hola") "bonjour"
    0 0 0 60 "en" "es" (le_refl 0) (le_refl 0) (le_refl 0)
    (by norm_num [ONLINE_RETRY_INTERVAL]) (by decide)

end EchoFlux
